import Mathlib

/-!
Book management API (`src/day3/server.js`)

A shallow embedding of the Express service in `src/day3/server.js`:
the in-memory store (`books`, `nextId`), `findBookById`, `validateBook`
and the route handlers, followed by theorems about them.

Modelling conventions.

* A request body is the object produced by the JSON body parser.  Only the
  properties the handlers read matter, so a body is a record of optional
  JSON values (`none` is JavaScript `undefined`, i.e. the property is absent).
* JavaScript exceptions are explicit: a computation that can throw returns
  `Except JsError _`; every handler catches the exception and answers 500,
  keeping whatever it had already written to the store.
* JSON numbers are integers (`Int`).  The numeric value of a string is the
  IEEE double nearest to its numeral (ties to even), held as the exact decimal
  value of that double.  `nextId`, book ids and the results of `parseInt` are
  exact integers, as the runtime's are below `2 ^ 53`.
* A string is a sequence of Unicode characters.
* The current year (`new Date().getFullYear()`) is a parameter.
* The Unicode case tables of the runtime are a parameter (`CaseTable`): the
  source does not contain them, and only their effect on ASCII text is fixed.
-/

namespace BookApi

/-! ## JavaScript values -/

/-- JSON value, as produced by `JSON.parse`. -/
inductive Json where
  | null
  | bool (b : Bool)
  | num (n : Int)
  | str (s : String)
  | arr (items : List Json)
  | obj (fields : List (String × Json))

/-- Exception raised by the runtime; the handlers only ever see `TypeError`. -/
inductive JsError where
  | typeError
  deriving DecidableEq, Repr

deriving instance DecidableEq for Except

/-- Numeric value produced by `ToNumber`: `dec m e` stands for `m * 10 ^ e`
(every finite double has such a form, since `2 ^ (-k) = 5 ^ k * 10 ^ (-k)`). -/
inductive JsNumber where
  | nan
  | posInf
  | negInf
  | dec (m : Int) (e : Int)
  deriving DecidableEq, Repr

/-- Value returned by `parseInt`: `NaN` or an integer. -/
inductive JsInt where
  | nan
  | int (n : Int)
  deriving DecidableEq, Repr

/-! ## Strings -/

/-- White space and line terminators of ECMAScript (the characters removed by
`String.prototype.trim` and skipped by `Number` and `parseInt`). -/
def isJsWhiteSpace (c : Char) : Bool :=
  let n := c.toNat
  n == 0x09 || n == 0x0A || n == 0x0B || n == 0x0C || n == 0x0D || n == 0x20 ||
  n == 0xA0 || n == 0x1680 || (0x2000 ≤ n && n ≤ 0x200A) || n == 0x2028 ||
  n == 0x2029 || n == 0x202F || n == 0x205F || n == 0x3000 || n == 0xFEFF

/-- Drop leading white space. -/
def trimStartChars : List Char → List Char
  | [] => []
  | c :: cs => if isJsWhiteSpace c then trimStartChars cs else c :: cs

/-- Drop leading and trailing white space. -/
def trimChars (cs : List Char) : List Char :=
  (trimStartChars (trimStartChars cs).reverse).reverse

/-- Model of `String.prototype.trim`. -/
def jsTrim (s : String) : String := ⟨trimChars s.data⟩

/-- Lower-case one character (ASCII letters; other characters are kept). -/
def lowerChar (c : Char) : Char :=
  if 65 ≤ c.toNat ∧ c.toNat ≤ 90 then Char.ofNat (c.toNat + 32) else c

/-- Case folding of the letters `A` to `Z`, every other character kept: the
folding of a regular expression with the flag `i` against an ASCII pattern, and
the value of `String.prototype.toLowerCase` on ASCII text. -/
def asciiLowerCase (s : String) : String := ⟨s.data.map lowerChar⟩

/-- Every character of the text is an ASCII character. -/
def isAscii (s : String) : Bool := s.data.all (fun c => c.toNat < 128)

/-- The method `String.prototype.toLowerCase` of the runtime.  It applies the
Unicode case tables, which are not part of the source, so it is a parameter of
the model.  Two facts about it are fixed: on ASCII text it folds exactly the
letters `A` to `Z`, and it never turns a non-empty text into the empty one. -/
structure CaseTable where
  toLowerCase : String → String
  lower_ascii : ∀ s, isAscii s = true → toLowerCase s = asciiLowerCase s
  lower_eq_empty : ∀ s, toLowerCase s = "" → s = ""

/-- The case table that folds the ASCII letters only.  Every case table agrees
with it on ASCII text; it serves to evaluate the model on ASCII examples. -/
def asciiCaseTable : CaseTable :=
  { toLowerCase := asciiLowerCase
    lower_ascii := fun _ _ => rfl
    lower_eq_empty := by
      intro s h
      have hd : (asciiLowerCase s).data = [] := by rw [h]
      simp only [asciiLowerCase, List.map_eq_nil_iff] at hd
      exact String.ext hd }

/-- Substring test on character lists. -/
def includesChars : List Char → List Char → Bool
  | [], needle => needle.isEmpty
  | c :: cs, needle => needle.isPrefixOf (c :: cs) || includesChars cs needle

/-- Model of `String.prototype.includes`. -/
def jsIncludes (s needle : String) : Bool := includesChars s.data needle.data

/-! ## Numerals -/

/-- Value of a digit character in the given radix (at most 16). -/
def digitValue (radix : Nat) (c : Char) : Option Nat :=
  let n := c.toNat
  let v : Option Nat :=
    if 48 ≤ n ∧ n ≤ 57 then some (n - 48)
    else if 97 ≤ n ∧ n ≤ 102 then some (n - 87)
    else if 65 ≤ n ∧ n ≤ 70 then some (n - 55)
    else none
  match v with
  | some d => if d < radix then some d else none
  | none => none

/-- Split off the longest run of leading digits: their values, most significant
first, and the remaining characters. -/
def takeDigits (radix : Nat) : List Char → List Nat × List Char
  | [] => ([], [])
  | c :: cs =>
    match digitValue radix c with
    | some d => let r := takeDigits radix cs; (d :: r.1, r.2)
    | none => ([], c :: cs)

/-- Number denoted by a list of digits, most significant first. -/
def digitsToNat (radix : Nat) (ds : List Nat) : Nat :=
  ds.foldl (fun acc d => acc * radix + d) 0

/-- Decimal digits of `n`, most significant first (`fuel` bounds the length). -/
def decimalChars : Nat → Nat → List Char
  | 0, _ => []
  | fuel + 1, n =>
    if n < 10 then [Char.ofNat (48 + n)]
    else decimalChars fuel (n / 10) ++ [Char.ofNat (48 + n % 10)]

/-- Model of `Number.prototype.toString` on an integer: its decimal numeral
(the form the runtime prints for magnitudes below `10 ^ 21`). -/
def intToChars (n : Int) : List Char :=
  if n < 0 then '-' :: decimalChars (n.natAbs + 1) n.natAbs
  else decimalChars (n.natAbs + 1) n.natAbs

/-- Split off an optional sign: the factor `1` or `-1` and the rest. -/
def splitSign : List Char → Int × List Char
  | '+' :: r => (1, r)
  | '-' :: r => (-1, r)
  | r => (1, r)

/-- Radix chosen by `parseInt` without a radix argument: 16 after a leading
`0x` or `0X` (which is removed), else 10. -/
def splitRadix : List Char → Nat × List Char
  | '0' :: 'x' :: r => (16, r)
  | '0' :: 'X' :: r => (16, r)
  | r => (10, r)

/-- Floor of the binary logarithm of `n` (`0` for `n < 2`); `fuel` bounds the
number of halvings. -/
def log2Floor : Nat → Nat → Nat
  | 0, _ => 0
  | fuel + 1, n => if n < 2 then 0 else log2Floor fuel (n / 2) + 1

/-- The IEEE 754 double nearest to the positive rational `n / d`, ties going to
the even significand, with the given sign: `Infinity` from `2 ^ 1024` on, the
subnormal spacing `2 ^ (-1074)` at the bottom.  The result is the exact value of
that double, written as an integer when it is one. -/
def nearestDouble (sign : Int) (n d : Nat) : JsNumber :=
  if n = 0 then .dec 0 0
  else
    -- binary exponent `k` with `2 ^ k ≤ n / d < 2 ^ (k + 1)`
    let k0 : Int := (log2Floor n n : Int) - (log2Floor d d : Int)
    let reaches : Bool :=
      if 0 ≤ k0 then decide (d * 2 ^ k0.toNat ≤ n) else decide (d ≤ n * 2 ^ (-k0).toNat)
    let k : Int := if reaches then k0 else k0 - 1
    -- the doubles around `n / d` are the multiples of `2 ^ q`
    let q : Int := max (k - 52) (-1074)
    let num : Nat := if 0 ≤ q then n else n * 2 ^ (-q).toNat
    let den : Nat := if 0 ≤ q then d * 2 ^ q.toNat else d
    let quotient := num / den
    let remainder := num % den
    let r : Nat :=
      if den < 2 * remainder ∨ (2 * remainder = den ∧ quotient % 2 = 1) then quotient + 1
      else quotient
    -- `r ≤ 2 ^ 53`, so `r * 2 ^ q` reaches `2 ^ 1024` only for `971 ≤ q`
    if 971 ≤ q ∧ (1024 ≤ q ∨ 2 ^ (1024 - q).toNat ≤ r) then
      (if sign < 0 then .negInf else .posInf)
    else if 0 ≤ q then .dec (sign * (r * 2 ^ q.toNat : Nat)) 0
    else if r % 2 ^ (-q).toNat = 0 then .dec (sign * (r / 2 ^ (-q).toNat : Nat)) 0
    else .dec (sign * (r * 5 ^ (-q).toNat : Nat)) q

/-- The double nearest to `m * 10 ^ e`, with the given sign. -/
def decimalToDouble (sign : Int) (m : Nat) (e : Int) : JsNumber :=
  if 0 ≤ e then nearestDouble sign (m * 10 ^ e.toNat) 1
  else nearestDouble sign m (10 ^ (-e).toNat)

/-- Exponent part of a decimal literal: empty, or `e`/`E`, an optional sign and
digits up to the end of the text. -/
def parseExponent : List Char → Option Int
  | [] => some 0
  | c :: rest =>
    if c = 'e' ∨ c = 'E' then
      let signed := splitSign rest
      let ds := takeDigits 10 signed.2
      if ds.1 ≠ [] ∧ ds.2 = [] then some (signed.1 * (digitsToNat 10 ds.1 : Int)) else none
    else none

/-- The grammar `StrDecimalLiteral` (after the sign has been removed). -/
def parseUnsignedDecimal (sign : Int) (cs : List Char) : JsNumber :=
  if cs = "Infinity".data then (if sign < 0 then .negInf else .posInf)
  else
    let ip := takeDigits 10 cs
    let fp : List Nat × List Char :=
      match ip.2 with
      | '.' :: r => takeDigits 10 r
      | r => ([], r)
    if ip.1 = [] ∧ fp.1 = [] then .nan
    else
      match parseExponent fp.2 with
      | some e => decimalToDouble sign (digitsToNat 10 (ip.1 ++ fp.1)) (e - fp.1.length)
      | none => .nan

/-- A literal in radix 16, 8 or 2 after its two-character marker. -/
def parseRadixLiteral (radix : Nat) (cs : List Char) : JsNumber :=
  let ds := takeDigits radix cs
  if ds.1 ≠ [] ∧ ds.2 = [] then decimalToDouble 1 (digitsToNat radix ds.1) 0 else .nan

/-- Model of `StringToNumber` (the conversion `Number(s)` for a string): the
numeral is read exactly and rounded to the nearest double. -/
def stringToNumber (s : String) : JsNumber :=
  match trimChars s.data with
  | [] => .dec 0 0
  | '0' :: 'x' :: r => parseRadixLiteral 16 r
  | '0' :: 'X' :: r => parseRadixLiteral 16 r
  | '0' :: 'o' :: r => parseRadixLiteral 8 r
  | '0' :: 'O' :: r => parseRadixLiteral 8 r
  | '0' :: 'b' :: r => parseRadixLiteral 2 r
  | '0' :: 'B' :: r => parseRadixLiteral 2 r
  | r => let signed := splitSign r; parseUnsignedDecimal signed.1 signed.2

/-- Model of `parseInt(s)` for a string and no radix argument. -/
def parseIntString (s : String) : JsInt :=
  let signed := splitSign (trimStartChars s.data)
  let based := splitRadix signed.2
  let ds := takeDigits based.1 based.2
  if ds.1 = [] then .nan else .int (signed.1 * (digitsToNat based.1 ds.1 : Int))

/-- The test `x < k` for a number `x` produced by `ToNumber` (a double, held as
its exact value) and an integer `k`; false when `x` is `NaN`. -/
def JsNumber.ltInt (x : JsNumber) (k : Int) : Bool :=
  match x with
  | .nan => false
  | .posInf => false
  | .negInf => true
  | .dec m e => if 0 ≤ e then m * 10 ^ e.toNat < k else m < k * 10 ^ (-e).toNat

/-- The test `x > k` for a number `x` produced by `ToNumber` (a double, held as
its exact value) and an integer `k`; false when `x` is `NaN`. -/
def JsNumber.gtInt (x : JsNumber) (k : Int) : Bool :=
  match x with
  | .nan => false
  | .posInf => true
  | .negInf => false
  | .dec m e => if 0 ≤ e then k < m * 10 ^ e.toNat else k * 10 ^ (-e).toNat < m

/-- Model of the global `isNaN` after `ToNumber`. -/
def JsNumber.isNaN (x : JsNumber) : Bool :=
  match x with
  | .nan => true
  | _ => false

/-! ## Conversions of JSON values -/

mutual
/-- Model of `ToString` on a parsed JSON value.  An array is joined with commas
(`null` items give the empty text).  An object parsed from JSON has no callable
property, so an own property named `toString` hides `Object.prototype.toString`
and `OrdinaryToPrimitive` throws a `TypeError`; without it the text is
`[object Object]`. -/
def Json.toJsString : Json → Except JsError String
  | .null => pure "null"
  | .bool b => pure (if b then "true" else "false")
  | .num n => pure ⟨intToChars n⟩
  | .str s => pure s
  | .arr items => do
    let parts ← Json.itemStrings items
    pure (String.intercalate "," parts)
  | .obj fields =>
    if fields.any (fun kv => kv.1 == "toString") then throw JsError.typeError
    else pure "[object Object]"
/-- Texts of the items of an array, as `Array.prototype.join` computes them. -/
def Json.itemStrings : List Json → Except JsError (List String)
  | [] => pure []
  | x :: xs => do
    let a ← (match x with
      | .null => pure ""
      | y => Json.toJsString y)
    let r ← Json.itemStrings xs
    pure (a :: r)
end

/-- Model of `ToNumber` on a property value (`none` is `undefined`). -/
def toNumber : Option Json → Except JsError JsNumber
  | none => pure .nan
  | some .null => pure (.dec 0 0)
  | some (.bool b) => pure (.dec (if b then 1 else 0) 0)
  | some (.num n) => pure (.dec n 0)
  | some (.str s) => pure (stringToNumber s)
  | some v => do
    let s ← v.toJsString
    pure (stringToNumber s)

/-- Model of `parseInt(v)`: the argument is converted to a string first. -/
def jsParseInt : Option Json → Except JsError JsInt
  | none => pure .nan
  | some v => do
    let s ← v.toJsString
    pure (parseIntString s)

/-- Truthiness of a property value (`none` is `undefined`). -/
def truthy : Option Json → Bool
  | none => false
  | some .null => false
  | some (.bool b) => b
  | some (.num n) => n != 0
  | some (.str s) => s != ""
  | some (.arr _) => true
  | some (.obj _) => true

/-- The method call `v.trim()`: only a string has a callable `trim`. -/
def callTrim : Option Json → Except JsError String
  | some (.str s) => pure (jsTrim s)
  | _ => throw JsError.typeError

/-- The expression `v ? v.trim() : undefined`. -/
def trimOrUndefined (v : Option Json) : Except JsError (Option String) :=
  if truthy v then do
    let t ← callTrim v
    pure (some t)
  else pure none

/-- The expression `v ? parseInt(v) : undefined`. -/
def parseIntOrUndefined (v : Option Json) : Except JsError (Option JsInt) :=
  if truthy v then do
    let y ← jsParseInt v
    pure (some y)
  else pure none

/-- Strict equality `stored === v` between a stored string-or-undefined field
and a property value of the request body. -/
def strictEq (stored : Option String) (v : Option Json) : Bool :=
  match stored, v with
  | none, none => true
  | some s, some (.str t) => s == t
  | _, _ => false

/-! ## Data model -/

/-- Stored book record.  `year` is `undefined`, `NaN` or an integer; `genre`
and `isbn` are `undefined` or a string. -/
structure Book where
  id : Nat
  title : String
  author : String
  year : Option JsInt
  genre : Option String
  isbn : Option String
  available : Bool
  deriving DecidableEq, Repr

/-- The module-level state: the `books` array and the `nextId` counter. -/
structure Store where
  books : List Book
  nextId : Nat
  deriving DecidableEq, Repr

/-- The properties of `req.body` that exist for a JSON body (`id` is never read
by a handler). -/
structure Body where
  id : Option Json := none
  title : Option Json := none
  author : Option Json := none
  year : Option Json := none
  genre : Option Json := none
  isbn : Option Json := none
  available : Option Json := none

/-- The query parameters read by `GET /books`, each a string or omitted. -/
structure Query where
  author : Option String := none
  genre : Option String := none
  available : Option String := none
  search : Option String := none

/-- Value of a property of the `genreDistribution` object: a number, or a text
when `+ 1` was applied to something that is not a number. -/
inductive DistValue where
  | count (n : Nat)
  | text (s : String)
  deriving DecidableEq, Repr

/-- The object `stats` of the statistics handler.  `genreDistribution` lists the
own properties of that object with their values, in creation order. -/
structure Stats where
  totalBooks : Nat
  availableBooks : Nat
  unavailableBooks : Nat
  genreDistribution : List (String × DistValue)
  deriving DecidableEq, Repr

/-- JSON document of a response (`unhandled` is the 404 page of the framework
for a request that no route and no middleware answers). -/
inductive Payload where
  | bookList (count : Nat) (data : List Book)
  | book (data : Book)
  | bookMessage (message : String) (data : Book)
  | failure (message : String)
  | validation (message : String) (errors : List String)
  | internalError (message : String)
  | stats (data : Stats)
  | welcome (message : String) (version : String)
  | unhandled
  deriving DecidableEq, Repr

/-- Status code and JSON document sent by a handler. -/
structure Response where
  status : Nat
  payload : Payload
  deriving DecidableEq, Repr

/-- Initial value of `books`. -/
def books : List Book :=
  [ { id := 1, title := "The Great Gatsby", author := "F. Scott Fitzgerald",
      year := some (.int 1925), genre := some "Classic Literature",
      isbn := some "978-0-7432-7356-5", available := true },
    { id := 2, title := "To Kill a Mockingbird", author := "Harper Lee",
      year := some (.int 1960), genre := some "Fiction",
      isbn := some "978-0-06-112008-4", available := true },
    { id := 3, title := "1984", author := "George Orwell",
      year := some (.int 1949), genre := some "Dystopian Fiction",
      isbn := some "978-0-452-28423-4", available := false } ]

/-- Initial value of `nextId`. -/
def nextId : Nat := 4

/-- The store when the process starts. -/
def seedStore : Store := { books := books, nextId := nextId }

/-! ## Helpers and validation -/

/-- The test `book.id === parseInt(id)`. -/
def idMatches (k : JsInt) (b : Book) : Bool :=
  match k with
  | .nan => false
  | .int n => (b.id : Int) == n

/-- Model of `findBookById`, reading the given `books` array. -/
def findBookById (bs : List Book) (id : String) : Option Book :=
  bs.find? (idMatches (parseIntString id))

/-- The condition `!book.title || book.title.trim() === ''`. -/
def titleMissing (book : Body) : Except JsError Bool :=
  if !truthy book.title then pure true
  else do
    let t ← callTrim book.title
    pure (t == "")

/-- The condition `!book.author || book.author.trim() === ''`. -/
def authorMissing (book : Body) : Except JsError Bool :=
  if !truthy book.author then pure true
  else do
    let a ← callTrim book.author
    pure (a == "")

/-- The condition
`book.year && (isNaN(book.year) || book.year < 1000 || book.year > currentYear)`. -/
def yearInvalid (currentYear : Int) (book : Body) : Except JsError Bool :=
  if truthy book.year then do
    let y ← toNumber book.year
    pure (y.isNaN || y.ltInt 1000 || y.gtInt currentYear)
  else pure false

/-- The message pushed by the first rule. -/
def titleMessage : String := "Title is required"

/-- The message pushed by the second rule. -/
def authorMessage : String := "Author is required"

/-- The message pushed by the third rule. -/
def yearMessage : String := "Year must be a valid year between 1000 and current year"

/-- Model of `validateBook`; `currentYear` is `new Date().getFullYear()`. -/
def validateBook (currentYear : Int) (book : Body) : Except JsError (List String) := do
  let errors : List String := []
  let noTitle ← titleMissing book
  let errors := if noTitle then errors ++ [titleMessage] else errors
  let noAuthor ← authorMissing book
  let errors := if noAuthor then errors ++ [authorMessage] else errors
  let badYear ← yearInvalid currentYear book
  let errors := if badYear then errors ++ [yearMessage] else errors
  pure errors

/-! ## Route handlers

Each handler maps the store before the request to the response and the store
after it. -/

/-- Response of the `catch` block shared by the handlers. -/
def internalError : Response :=
  { status := 500, payload := .internalError "Internal server error" }

/-- The 404 answer of the `/books/:id` handlers. -/
def notFound (id : String) : Response :=
  { status := 404, payload := .failure ("Book with ID " ++ id ++ " not found") }

/-- The 400 answer of the create and update handlers. -/
def validationFailed (errors : List String) : Response :=
  { status := 400, payload := .validation "Validation failed" errors }

/-- The 409 answer of the create and update handlers. -/
def isbnConflict : Response :=
  { status := 409, payload := .failure "A book with this ISBN already exists" }

/-- The object literal `newBook` of the create handler, built after `nextId++`
has produced `id`; the property initialisers run in source order and any of
them may throw. -/
def buildNewBook (id : Nat) (body : Body) : Except JsError Book := do
  let title ← callTrim body.title
  let author ← callTrim body.author
  let year ← parseIntOrUndefined body.year
  let genre ← trimOrUndefined body.genre
  let isbn ← trimOrUndefined body.isbn
  let available := truthy (match body.available with
    | none => some (.bool true)
    | some v => some v)
  pure { id := id, title := title, author := author, year := year, genre := genre,
         isbn := isbn, available := available }

/-- Handler `app.post('/books')`. -/
def postBooks (currentYear : Int) (s : Store) (body : Body) : Response × Store :=
  match validateBook currentYear body with
  | .error _ => (internalError, s)
  | .ok errors =>
    if errors.length > 0 then (validationFailed errors, s)
    else if truthy body.isbn && s.books.any (fun book => strictEq book.isbn body.isbn) then
      (isbnConflict, s)
    else
      let s1 : Store := { s with nextId := s.nextId + 1 }
      match buildNewBook s.nextId body with
      | .error _ => (internalError, s1)
      | .ok newBook =>
        ({ status := 201, payload := .bookMessage "Book created successfully" newBook },
         { s1 with books := s1.books ++ [newBook] })

/-- The assignment `book.title = title ? title.trim() : book.title`. -/
def assignTitle (body : Body) (book : Book) : Except JsError Book := do
  let t ← (if truthy body.title then callTrim body.title else pure book.title)
  pure { book with title := t }

/-- The assignment `book.author = author ? author.trim() : book.author`. -/
def assignAuthor (body : Body) (book : Book) : Except JsError Book := do
  let a ← (if truthy body.author then callTrim body.author else pure book.author)
  pure { book with author := a }

/-- The assignment `book.year = year !== undefined ? parseInt(year) : book.year`. -/
def assignYear (body : Body) (book : Book) : Except JsError Book := do
  let y ← (if body.year.isSome then do
      let y ← jsParseInt body.year
      pure (some y)
    else pure book.year)
  pure { book with year := y }

/-- The assignment
`book.genre = genre !== undefined ? (genre ? genre.trim() : undefined) : book.genre`. -/
def assignGenre (body : Body) (book : Book) : Except JsError Book := do
  let g ← (if body.genre.isSome then trimOrUndefined body.genre else pure book.genre)
  pure { book with genre := g }

/-- The assignment
`book.isbn = isbn !== undefined ? (isbn ? isbn.trim() : undefined) : book.isbn`. -/
def assignIsbn (body : Body) (book : Book) : Except JsError Book := do
  let i ← (if body.isbn.isSome then trimOrUndefined body.isbn else pure book.isbn)
  pure { book with isbn := i }

/-- The assignment
`book.available = available !== undefined ? Boolean(available) : book.available`. -/
def assignAvailable (body : Body) (book : Book) : Except JsError Book :=
  pure { book with available := if body.available.isSome then truthy body.available
                                else book.available }

/-- The six assignments of the update handler, in source order; each yields the
record after the assignment or throws. -/
def putAssignments (body : Body) : List (Book → Except JsError Book) :=
  [assignTitle body, assignAuthor body, assignYear body, assignGenre body,
   assignIsbn body, assignAvailable body]

/-- Run assignments in order on a record that is mutated in place: the record
reached and whether every assignment completed (`false`: one of them threw and
the later ones did not run). -/
def runAssignments : List (Book → Except JsError Book) → Book → Book × Bool
  | [], book => (book, true)
  | f :: fs, book =>
    match f book with
    | .ok book1 => runAssignments fs book1
    | .error _ => (book, false)

/-- Write `b` over the first record selected by `p`: the effect on the array of
mutating the object returned by `books.find(p)`. -/
def replaceFirst (p : Book → Bool) (b : Book) : List Book → List Book
  | [] => []
  | x :: xs => if p x then b :: xs else x :: replaceFirst p b xs

/-- Handler `app.put('/books/:id')`. -/
def putBooksId (currentYear : Int) (s : Store) (id : String) (body : Body) :
    Response × Store :=
  match findBookById s.books id with
  | none => (notFound id, s)
  | some book =>
    match validateBook currentYear body with
    | .error _ => (internalError, s)
    | .ok errors =>
      if errors.length > 0 then (validationFailed errors, s)
      else if truthy body.isbn && !strictEq book.isbn body.isbn &&
          s.books.any (fun b => strictEq b.isbn body.isbn && b.id != book.id) then
        (isbnConflict, s)
      else
        let r := runAssignments (putAssignments body) book
        let s1 : Store :=
          { s with books := replaceFirst (idMatches (parseIntString id)) r.1 s.books }
        if r.2 then
          ({ status := 200, payload := .bookMessage "Book updated successfully" r.1 }, s1)
        else (internalError, s1)

/-- Model of `Array.prototype.findIndex` (`none` is `-1`). -/
def findIndex (p : Book → Bool) : List Book → Option Nat
  | [] => none
  | x :: xs => if p x then some 0 else (findIndex p xs).map (· + 1)

/-- Handler `app.delete('/books/:id')`.  `books.splice(bookIndex, 1)[0]` reads
the record at the index found by `findIndex`, which is always in range, so the
`none` branch of the inner `match` is never taken (`findIndex_some`). -/
def deleteBooksId (s : Store) (id : String) : Response × Store :=
  match findIndex (idMatches (parseIntString id)) s.books with
  | none => (notFound id, s)
  | some bookIndex =>
    match s.books[bookIndex]? with
    | none => (internalError, s)
    | some deletedBook =>
      ({ status := 200, payload := .bookMessage "Book deleted successfully" deletedBook },
       { s with books := s.books.eraseIdx bookIndex })

/-- Truthiness of a query parameter: present and not the empty string. -/
def truthyParam : Option String → Bool
  | none => false
  | some q => q != ""

/-- Handler `app.get('/books')`; the query parameters are strings or omitted. -/
def getBooks (rt : CaseTable) (s : Store) (query : Query) : Response × Store :=
  let filteredBooks := s.books
  let filteredBooks :=
    if truthyParam query.author then
      filteredBooks.filter (fun book =>
        jsIncludes (rt.toLowerCase book.author) (rt.toLowerCase (query.author.getD "")))
    else filteredBooks
  let filteredBooks :=
    if truthyParam query.genre then
      filteredBooks.filter (fun book =>
        match book.genre with
        | none => false
        | some g => g != "" &&
            jsIncludes (rt.toLowerCase g) (rt.toLowerCase (query.genre.getD "")))
    else filteredBooks
  let filteredBooks :=
    match query.available with
    | some a =>
      let isAvailable := rt.toLowerCase a == "true"
      filteredBooks.filter (fun book => book.available == isAvailable)
    | none => filteredBooks
  let filteredBooks :=
    if truthyParam query.search then
      let searchTerm := rt.toLowerCase (query.search.getD "")
      filteredBooks.filter (fun book =>
        jsIncludes (rt.toLowerCase book.title) searchTerm ||
        jsIncludes (rt.toLowerCase book.author) searchTerm)
    else filteredBooks
  ({ status := 200, payload := .bookList filteredBooks.length filteredBooks }, s)

/-- Handler `app.get('/books/:id')`. -/
def getBooksId (s : Store) (id : String) : Response × Store :=
  match findBookById s.books id with
  | none => (notFound id, s)
  | some book => ({ status := 200, payload := .book book }, s)

/-- Own property `key` of the object, if there is one. -/
def getOwn (key : String) : List (String × DistValue) → Option DistValue
  | [] => none
  | (k, v) :: rest => if k = key then some v else getOwn key rest

/-- Write the own property `key`: an existing property keeps its place, a new
one is created after the others. -/
def setOwn (key : String) (v : DistValue) :
    List (String × DistValue) → List (String × DistValue)
  | [] => [(key, v)]
  | (k, w) :: rest => if k = key then (k, v) :: rest else (k, w) :: setOwn key v rest

/-- Names of the function-valued properties that a plain object inherits from
`Object.prototype`, each with the name of the function found there. -/
def objectPrototypeFunctions : List (String × String) :=
  [("constructor", "Object"), ("__defineGetter__", "__defineGetter__"),
   ("__defineSetter__", "__defineSetter__"), ("hasOwnProperty", "hasOwnProperty"),
   ("__lookupGetter__", "__lookupGetter__"), ("__lookupSetter__", "__lookupSetter__"),
   ("isPrototypeOf", "isPrototypeOf"), ("propertyIsEnumerable", "propertyIsEnumerable"),
   ("toString", "toString"), ("valueOf", "valueOf"), ("toLocaleString", "toLocaleString")]

/-- Text of a built-in function, as the runtime of the service (V8) prints it. -/
def nativeFunctionText (name : String) : String :=
  "function " ++ name ++ "() \x7b [native code] \x7d"

/-- The statement
`stats.genreDistribution[g] = (stats.genreDistribution[g] || 0) + 1` on the
plain object `dist`.  The read finds an own property, else what
`Object.prototype` provides for that name: the accessor `__proto__` yields the
prototype object, whose sum with 1 is a text that the `__proto__` setter
ignores, so nothing is written; an inherited function is truthy and its sum
with 1 is a text, written as an own property; any other name reads
`undefined`, and 1 is written. -/
def countGenre (dist : List (String × DistValue)) (g : String) :
    List (String × DistValue) :=
  match getOwn g dist with
  | some (.count n) => setOwn g (.count (n + 1)) dist
  | some (.text t) =>
    if t = "" then setOwn g (.count 1) dist else setOwn g (.text (t ++ "1")) dist
  | none =>
    if g = "__proto__" then dist
    else
      match objectPrototypeFunctions.lookup g with
      | some f => setOwn g (.text (nativeFunctionText f ++ "1")) dist
      | none => setOwn g (.count 1) dist

/-- The loop `books.forEach(book => { if (book.genre) ... })` of the statistics
handler, started on the empty object. -/
def genreDistribution (bs : List Book) : List (String × DistValue) :=
  bs.foldl (fun dist book =>
    match book.genre with
    | none => dist
    | some g => if g != "" then countGenre dist g else dist) []

/-- Handler `app.get('/books/stats')`. -/
def getBooksStats (s : Store) : Response × Store :=
  let stats : Stats :=
    { totalBooks := s.books.length,
      availableBooks := (s.books.filter (fun book => book.available)).length,
      unavailableBooks := (s.books.filter (fun book => !book.available)).length,
      genreDistribution := genreDistribution s.books }
  ({ status := 200, payload := .stats stats }, s)

/-- Handler `app.get('/')`. -/
def getRoot (s : Store) : Response × Store :=
  ({ status := 200,
     payload := .welcome "Welcome to the Book Management API! 📚" "1.0.0" }, s)

/-- The middleware `app.use('/*splat', ...)`. -/
def routeNotFound (s : Store) : Response × Store :=
  ({ status := 404,
     payload := .failure "Route not found. Visit / for available endpoints." }, s)

/-! ## Routing

A request reaches the handlers through the route table, tried in registration
order; every handler answers, so the first route that matches decides.  A path
is given by its decoded segments (`/books/7` is `["books", "7"]`, `/` is `[]`);
literal segments match without regard to case, `:id` matches one segment. -/

/-- Request method. -/
inductive Method where
  | get
  | post
  | put
  | delete
  | other
  deriving DecidableEq, Repr

/-- An incoming request. -/
structure HttpRequest where
  method : Method
  path : List String
  query : Query := {}
  body : Body := {}

/-- One entry of the route table: the handler to run when the entry matches. -/
def Route : Type := Int → HttpRequest → Option (Store → Response × Store)

/-- The literal path segment `books`. -/
def isBooks (segment : String) : Bool := asciiLowerCase segment == "books"

/-- The route table in the order of registration in `server.js`. -/
def routeTable (rt : CaseTable) : List Route :=
  [ -- app.get('/books')
    fun _ r =>
      match r.method, r.path with
      | .get, [b] => if isBooks b then some (fun s => getBooks rt s r.query) else none
      | _, _ => none,
    -- app.get('/books/:id')
    fun _ r =>
      match r.method, r.path with
      | .get, [b, id] => if isBooks b then some (fun s => getBooksId s id) else none
      | _, _ => none,
    -- app.post('/books')
    fun currentYear r =>
      match r.method, r.path with
      | .post, [b] => if isBooks b then some (fun s => postBooks currentYear s r.body) else none
      | _, _ => none,
    -- app.put('/books/:id')
    fun currentYear r =>
      match r.method, r.path with
      | .put, [b, id] =>
        if isBooks b then some (fun s => putBooksId currentYear s id r.body) else none
      | _, _ => none,
    -- app.delete('/books/:id')
    fun _ r =>
      match r.method, r.path with
      | .delete, [b, id] => if isBooks b then some (fun s => deleteBooksId s id) else none
      | _, _ => none,
    -- app.get('/books/stats')
    fun _ r =>
      match r.method, r.path with
      | .get, [b, st] =>
        if isBooks b && asciiLowerCase st == "stats" then some getBooksStats else none
      | _, _ => none,
    -- app.get('/')
    fun _ r =>
      match r.method, r.path with
      | .get, [] => some getRoot
      | _, _ => none,
    -- app.use('/*splat')
    fun _ r =>
      match r.path with
      | [] => none
      | _ :: _ => some routeNotFound ]

/-- Answer of the application to a request: the first matching entry of the
route table runs; a request that matches none gets the 404 of the framework. -/
def dispatch (rt : CaseTable) (currentYear : Int) (s : Store) (r : HttpRequest) :
    Response × Store :=
  match (routeTable rt).findSome? (fun route => route currentYear r) with
  | some handler => handler s
  | none => ({ status := 404, payload := .unhandled }, s)

/-! ## Request sequences -/

/-- The requests that can change the store. -/
inductive WriteRequest where
  | post (body : Body)
  | put (id : String) (body : Body)
  | delete (id : String)

/-- Serve one write request. -/
def serve (currentYear : Int) (s : Store) : WriteRequest → Response × Store
  | .post body => postBooks currentYear s body
  | .put id body => putBooksId currentYear s id body
  | .delete id => deleteBooksId s id

/-- Store after serving the requests in order. -/
def run (currentYear : Int) (s : Store) : List WriteRequest → Store
  | [] => s
  | r :: rs => run currentYear (serve currentYear s r).2 rs

/-- Ids handed out by the create handler while serving the requests in order:
the `id` of every book answered with 201. -/
def assignedIds (currentYear : Int) (s : Store) : List WriteRequest → List Nat
  | [] => []
  | r :: rs =>
    let out := serve currentYear s r
    let here : List Nat :=
      match r, out.1.status, out.1.payload with
      | .post _, 201, .bookMessage _ b => [b.id]
      | _, _, _ => []
    here ++ assignedIds currentYear out.2 rs

/-! ## Predicates used in the statements -/

/-- No id occurs twice in the collection and every id is below `nextId`. -/
def IdsFresh (s : Store) : Prop :=
  (s.books.map (·.id)).Nodup ∧ ∀ b ∈ s.books, b.id < s.nextId

/-- Rule 1 of the validator in the words of the specification: the title is
missing, or blank after trimming. -/
def TitleBlank (body : Body) : Prop :=
  body.title = none ∨ ∃ t, body.title = some (.str t) ∧ jsTrim t = ""

/-- Rule 2 of the validator in the words of the specification: the author is
missing, or blank after trimming. -/
def AuthorBlank (body : Body) : Prop :=
  body.author = none ∨ ∃ a, body.author = some (.str a) ∧ jsTrim a = ""

/-- Rule 3 of the validator in the words of the specification: the year is
present and is non-numeric, or less than 1000, or greater than the current
year. -/
def YearRuleViolated (currentYear : Int) (body : Body) : Prop :=
  body.year ≠ none ∧ ∃ y, toNumber body.year = .ok y ∧
    (y.isNaN = true ∨ y.ltInt 1000 = true ∨ y.gtInt currentYear = true)

/-- Case-insensitive substring relation: the lower-cased `needle` occurs as a
contiguous part of the lower-cased `text`. -/
def ContainsIgnoringCase (rt : CaseTable) (text needle : String) : Prop :=
  (rt.toLowerCase needle).data <:+: (rt.toLowerCase text).data

instance (rt : CaseTable) (text needle : String) :
    Decidable (ContainsIgnoringCase rt text needle) := by
  unfold ContainsIgnoringCase
  infer_instance

/-- The criteria of the listing in the words of the specification: every
supplied criterion holds of the book, an omitted criterion imposes nothing. -/
def satisfiesCriteria (rt : CaseTable) (query : Query) (book : Book) : Bool :=
  (match query.author with
    | none => true
    | some a => decide (ContainsIgnoringCase rt book.author a)) &&
  (match query.genre with
    | none => true
    | some g =>
      match book.genre with
      | none => false
      | some bg => decide (ContainsIgnoringCase rt bg g)) &&
  (match query.available with
    | none => true
    | some v => book.available == (rt.toLowerCase v == "true")) &&
  (match query.search with
    | none => true
    | some t =>
      decide (ContainsIgnoringCase rt book.title t) ||
      decide (ContainsIgnoringCase rt book.author t))

/-- The criteria of the listing as the handler applies them: as
`satisfiesCriteria`, except that an empty `genre` criterion imposes nothing. -/
def satisfiesCriteriaAmended (rt : CaseTable) (query : Query) (book : Book) : Bool :=
  (match query.author with
    | none => true
    | some a => decide (ContainsIgnoringCase rt book.author a)) &&
  (match query.genre with
    | none => true
    | some g =>
      g == "" ||
      match book.genre with
      | none => false
      | some bg => decide (ContainsIgnoringCase rt bg g)) &&
  (match query.available with
    | none => true
    | some v => book.available == (rt.toLowerCase v == "true")) &&
  (match query.search with
    | none => true
    | some t =>
      decide (ContainsIgnoringCase rt book.title t) ||
      decide (ContainsIgnoringCase rt book.author t))

/-- Every supplied criterion is ASCII text. -/
def asciiQuery (query : Query) : Bool :=
  query.author.all isAscii && query.genre.all isAscii && query.available.all isAscii &&
  query.search.all isAscii

/-- The texts of the book that the listing looks at are ASCII text. -/
def asciiBook (book : Book) : Bool :=
  isAscii book.title && isAscii book.author && book.genre.all isAscii

/-- The id of the book equals the integer parsed from the route parameter. -/
def HasParsedId (id : String) (b : Book) : Prop :=
  ∃ n : Int, parseIntString id = .int n ∧ (b.id : Int) = n

/-- The book `b` is the first book of the collection whose id equals the
integer parsed from the route parameter. -/
def FirstWithParsedId (id : String) (bs : List Book) (b : Book) : Prop :=
  ∃ before after, bs = before ++ b :: after ∧ HasParsedId id b ∧
    ∀ x ∈ before, ¬ HasParsedId id x

/-- The title and the author are not empty, and each stored text (title,
author, and genre and isbn when present) equals its own trimmed form. -/
def WellStored (b : Book) : Prop :=
  b.title ≠ "" ∧ b.author ≠ "" ∧ jsTrim b.title = b.title ∧ jsTrim b.author = b.author ∧
  (∀ g, b.genre = some g → jsTrim g = g) ∧ (∀ i, b.isbn = some i → jsTrim i = i)

/-- Number of books whose genre is `g`. -/
def genreCount (bs : List Book) (g : String) : Nat :=
  (bs.filter (fun b => b.genre == some g)).length

/-- Sum of the numeric values of a genre distribution. -/
def sumOfCounts : List (String × DistValue) → Nat
  | [] => 0
  | (_, .count n) :: rest => n + sumOfCounts rest
  | (_, .text _) :: rest => sumOfCounts rest

/-! ## Basic facts about the runtime model -/

theorem callTrim_ok {v : Option Json} {t : String} (h : callTrim v = .ok t) :
    ∃ s, v = some (.str s) ∧ t = jsTrim s := by
  unfold callTrim at h
  split at h
  · rename_i s
    exact ⟨s, rfl, by injection h with h; exact h.symm⟩
  · cases h

theorem buildNewBook_id {id : Nat} {body : Body} {b : Book}
    (h : buildNewBook id body = .ok b) : b.id = id := by
  unfold buildNewBook at h
  simp only [bind, Except.bind, pure, Except.pure] at h
  repeat' split at h
  all_goals first
    | (cases h; done)
    | (cases h; rfl)

theorem putAssignments_id (body : Body) :
    ∀ f ∈ putAssignments body, ∀ b b1 : Book, f b = .ok b1 → b1.id = b.id := by
  intro f hf b b1 h
  simp only [putAssignments, List.mem_cons, List.mem_singleton, List.not_mem_nil, or_false] at hf
  rcases hf with rfl | rfl | rfl | rfl | rfl | rfl
  all_goals
    simp only [assignTitle, assignAuthor, assignYear, assignGenre, assignIsbn, assignAvailable,
      bind, Except.bind, pure, Except.pure] at h
    repeat' split at h
    all_goals first
      | (cases h; done)
      | (cases h; rfl)

theorem runAssignments_id (fs : List (Book → Except JsError Book))
    (hfs : ∀ f ∈ fs, ∀ b b1 : Book, f b = .ok b1 → b1.id = b.id) (book : Book) :
    (runAssignments fs book).1.id = book.id := by
  induction fs generalizing book with
  | nil => rfl
  | cons f fs ih =>
    simp only [runAssignments]
    split
    · rename_i b1 h1
      rw [ih (fun g hg => hfs g (List.mem_cons_of_mem _ hg)) b1]
      exact hfs f (List.mem_cons_self _ _) book b1 h1
    · rfl

/-! ## Decimal numerals -/

theorem digitChar_facts (d : Nat) (h : d < 10) :
    digitValue 10 (Char.ofNat (48 + d)) = some d ∧
    isJsWhiteSpace (Char.ofNat (48 + d)) = false ∧
    Char.ofNat (48 + d) ≠ '+' ∧ Char.ofNat (48 + d) ≠ '-' ∧
    Char.ofNat (48 + d) ≠ 'x' ∧ Char.ofNat (48 + d) ≠ 'X' := by
  interval_cases d <;> decide

theorem decimalChars_digits (fuel : Nat) :
    ∀ n, ∀ c ∈ decimalChars fuel n, ∃ d, d < 10 ∧ c = Char.ofNat (48 + d) := by
  induction fuel with
  | zero => intro n c hc; simp [decimalChars] at hc
  | succ fuel ih =>
    intro n c hc
    unfold decimalChars at hc
    split at hc
    · rename_i hlt
      exact ⟨n, hlt, by simpa using hc⟩
    · rcases List.mem_append.1 hc with hc | hc
      · exact ih _ c hc
      · exact ⟨n % 10, Nat.mod_lt _ (by decide), by simpa using hc⟩

theorem decimalChars_ne_nil (fuel n : Nat) : decimalChars (fuel + 1) n ≠ [] := by
  unfold decimalChars
  split <;> simp

theorem takeDigits_append (xs : List Char) (d : Nat) (hd : d < 10)
    (hxs : ∀ c ∈ xs, ∃ d, d < 10 ∧ c = Char.ofNat (48 + d)) :
    takeDigits 10 (xs ++ [Char.ofNat (48 + d)]) = ((takeDigits 10 xs).1 ++ [d], []) := by
  induction xs with
  | nil => simp [takeDigits, (digitChar_facts d hd).1]
  | cons c cs ih =>
    obtain ⟨e, he, rfl⟩ := hxs c (List.mem_cons_self _ _)
    have ih1 := ih (fun c hc => hxs c (List.mem_cons_of_mem _ hc))
    simp [takeDigits, (digitChar_facts e he).1, ih1]

theorem digitsToNat_append (ds : List Nat) (d : Nat) :
    digitsToNat 10 (ds ++ [d]) = digitsToNat 10 ds * 10 + d := by
  simp [digitsToNat, List.foldl_append]

theorem takeDigits_decimalChars (fuel : Nat) :
    ∀ n, n < fuel → (takeDigits 10 (decimalChars fuel n)).2 = [] ∧
      (takeDigits 10 (decimalChars fuel n)).1 ≠ [] ∧
      digitsToNat 10 (takeDigits 10 (decimalChars fuel n)).1 = n := by
  induction fuel with
  | zero => intro n h; omega
  | succ fuel ih =>
    intro n h
    unfold decimalChars
    split
    · rename_i hlt
      simp [takeDigits, (digitChar_facts n hlt).1, digitsToNat]
    · rename_i hge
      have hq : n / 10 < fuel := by omega
      obtain ⟨_, _, h3⟩ := ih (n / 10) hq
      rw [takeDigits_append _ _ (Nat.mod_lt _ (by decide)) (decimalChars_digits fuel _)]
      refine ⟨rfl, by simp, ?_⟩
      rw [digitsToNat_append, h3]
      omega

theorem parseIntString_intToChars (n : Int) (h : 0 ≤ n) :
    parseIntString ⟨intToChars n⟩ = .int n := by
  have hnn : ¬ n < 0 := by omega
  obtain ⟨k, rfl⟩ := Int.eq_ofNat_of_zero_le h
  simp only [intToChars, hnn, ↓reduceIte, Int.natAbs_ofNat, parseIntString]
  have hne := decimalChars_ne_nil k k
  have hdig := decimalChars_digits (k + 1) k
  obtain ⟨h2, h1, h3⟩ := takeDigits_decimalChars (k + 1) k (Nat.lt_succ_self k)
  cases hds : decimalChars (k + 1) k with
  | nil => exact absurd hds hne
  | cons c cs =>
    rw [hds] at hdig h1 h2 h3
    obtain ⟨d, hd, rfl⟩ := hdig c (List.mem_cons_self _ _)
    obtain ⟨_, hws, hplus, hminus, _, _⟩ := digitChar_facts d hd
    have htrim : trimStartChars (Char.ofNat (48 + d) :: cs) = Char.ofNat (48 + d) :: cs := by
      simp [trimStartChars, hws]
    have hsign : splitSign (Char.ofNat (48 + d) :: cs) = (1, Char.ofNat (48 + d) :: cs) := by
      unfold splitSign
      split
      · rename_i heq; exact absurd (List.cons.inj heq).1 hplus
      · rename_i heq; exact absurd (List.cons.inj heq).1 hminus
      · rfl
    have hradix : splitRadix (Char.ofNat (48 + d) :: cs) = (10, Char.ofNat (48 + d) :: cs) := by
      unfold splitRadix
      split
      · rename_i r heq
        have hx : 'x' ∈ Char.ofNat (48 + d) :: cs := by rw [heq]; simp
        obtain ⟨e, he, hxe⟩ := hdig _ hx
        exact absurd hxe.symm (digitChar_facts e he).2.2.2.2.1
      · rename_i r heq
        have hx : 'X' ∈ Char.ofNat (48 + d) :: cs := by rw [heq]; simp
        obtain ⟨e, he, hxe⟩ := hdig _ hx
        exact absurd hxe.symm (digitChar_facts e he).2.2.2.2.2
      · rfl
    simp only [htrim, hsign, hradix, h3, if_neg h1]
    simp

/-! ## Validation -/

theorem validateBook_of_checks {Y : Int} {body : Body} {c1 c2 c3 : Bool}
    (h1 : titleMissing body = .ok c1) (h2 : authorMissing body = .ok c2)
    (h3 : yearInvalid Y body = .ok c3) :
    validateBook Y body =
      .ok ((if c1 then [titleMessage] else []) ++ (if c2 then [authorMessage] else []) ++
        (if c3 then [yearMessage] else [])) := by
  simp only [validateBook, h1, h2, h3, bind, Except.bind, pure, Except.pure]
  cases c1 <;> cases c2 <;> cases c3 <;> rfl

theorem validateBook_ok {Y : Int} {body : Body} {errors : List String}
    (h : validateBook Y body = .ok errors) :
    ∃ c1 c2 c3, titleMissing body = .ok c1 ∧ authorMissing body = .ok c2 ∧
      yearInvalid Y body = .ok c3 ∧
      errors = (if c1 then [titleMessage] else []) ++ (if c2 then [authorMessage] else []) ++
        (if c3 then [yearMessage] else []) := by
  cases h1 : titleMissing body with
  | error e => simp [validateBook, h1, bind, Except.bind] at h
  | ok c1 =>
    cases h2 : authorMissing body with
    | error e => simp [validateBook, h1, h2, bind, Except.bind] at h
    | ok c2 =>
      cases h3 : yearInvalid Y body with
      | error e => simp [validateBook, h1, h2, h3, bind, Except.bind] at h
      | ok c3 =>
        rw [validateBook_of_checks h1 h2 h3] at h
        exact ⟨c1, c2, c3, rfl, rfl, rfl, (Except.ok.inj h).symm⟩

theorem titleMissing_str (body : Body) (t : String) (h : body.title = some (.str t)) :
    titleMissing body = .ok (jsTrim t == "") := by
  unfold titleMissing
  rw [h]
  by_cases ht : t = ""
  · subst ht; rfl
  · simp [truthy, callTrim, ht, bind, Except.bind, pure, Except.pure]

theorem authorMissing_str (body : Body) (a : String) (h : body.author = some (.str a)) :
    authorMissing body = .ok (jsTrim a == "") := by
  unfold authorMissing
  rw [h]
  by_cases ha : a = ""
  · subst ha; rfl
  · simp [truthy, callTrim, ha, bind, Except.bind, pure, Except.pure]

theorem yearInvalid_none (Y : Int) (body : Body) (h : body.year = none) :
    yearInvalid Y body = .ok false := by
  unfold yearInvalid
  rw [h]
  rfl

theorem yearInvalid_num (Y : Int) (body : Body) (n : Int) (h : body.year = some (.num n)) :
    yearInvalid Y body = .ok (n != 0 && (decide (n < 1000) || decide (Y < n))) := by
  unfold yearInvalid
  rw [h]
  by_cases hn : n = 0
  · subst hn; rfl
  · simp [truthy, hn, toNumber, bind, Except.bind, pure, Except.pure, JsNumber.isNaN,
      JsNumber.ltInt, JsNumber.gtInt]

/-- The numeric value of a string is the double nearest to its numeral: a
numeral within half a unit in the last place of 1000 or of 2026 has that value,
and one further away has the neighbouring double. -/
theorem stringToNumber_rounds :
    stringToNumber "999.99999999999999999999" = .dec 1000 0 ∧
    stringToNumber "2026.00000000000000000001" = .dec 2026 0 ∧
    stringToNumber "999.9999999999999" =
      .dec 9999999999999998863131622783839702606201171875 (-43) ∧
    stringToNumber " 0x7D0 " = .dec 2000 0 ∧
    stringToNumber "1e3" = .dec 1000 0 ∧
    stringToNumber "12abc" = .nan := by
  decide

set_option maxRecDepth 100000 in
/-- The year rule is applied to the rounded value of a string year: the first
two years below are the doubles 1000 and 2026, inside the range, and the third
is a double below 1000. -/
theorem validateBook_year_rounds :
    validateBook 2026
      { title := some (.str "T"), author := some (.str "A"),
        year := some (.str "999.99999999999999999999") } = .ok [] ∧
    validateBook 2026
      { title := some (.str "T"), author := some (.str "A"),
        year := some (.str "2026.00000000000000000001") } = .ok [] ∧
    validateBook 2026
      { title := some (.str "T"), author := some (.str "A"),
        year := some (.str "999.9999999999999") } = .ok [yearMessage] := by
  decide

/-! ## Outcomes of the handlers -/

theorem postBooks_cases (Y : Int) (s : Store) (body : Body) :
    postBooks Y s body = (internalError, s) ∨
    (∃ errors, validateBook Y body = .ok errors ∧ 0 < errors.length ∧
      postBooks Y s body = (validationFailed errors, s)) ∨
    postBooks Y s body = (isbnConflict, s) ∨
    (validateBook Y body = .ok [] ∧
      postBooks Y s body = (internalError, { s with nextId := s.nextId + 1 })) ∨
    (∃ b, validateBook Y body = .ok [] ∧ buildNewBook s.nextId body = .ok b ∧
      postBooks Y s body =
        ({ status := 201, payload := .bookMessage "Book created successfully" b },
         { books := s.books ++ [b], nextId := s.nextId + 1 })) := by
  unfold postBooks
  cases hv : validateBook Y body with
  | error e => exact Or.inl rfl
  | ok errors =>
    by_cases hlen : errors.length > 0
    · exact Or.inr (Or.inl ⟨errors, rfl, hlen, by simp [hlen]⟩)
    · have hnil : errors = [] := by
        cases errors with
        | nil => rfl
        | cons a l => simp at hlen
      subst hnil
      by_cases hc : (truthy body.isbn && s.books.any (fun book => strictEq book.isbn body.isbn)) = true
      · exact Or.inr (Or.inr (Or.inl (by simp [hc])))
      · cases hb : buildNewBook s.nextId body with
        | error e => exact Or.inr (Or.inr (Or.inr (Or.inl ⟨rfl, by simp [hc]⟩)))
        | ok b => exact Or.inr (Or.inr (Or.inr (Or.inr ⟨b, rfl, rfl, by simp [hc]⟩)))

theorem putBooksId_cases (Y : Int) (s : Store) (id : String) (body : Body) :
    putBooksId Y s id body = (notFound id, s) ∨
    putBooksId Y s id body = (internalError, s) ∨
    (∃ errors, validateBook Y body = .ok errors ∧ 0 < errors.length ∧
      putBooksId Y s id body = (validationFailed errors, s)) ∨
    putBooksId Y s id body = (isbnConflict, s) ∨
    (∃ book, findBookById s.books id = some book ∧ validateBook Y body = .ok [] ∧
      putBooksId Y s id body =
        (if (runAssignments (putAssignments body) book).2 = true then
           { status := 200,
             payload := .bookMessage "Book updated successfully"
                          (runAssignments (putAssignments body) book).1 }
         else internalError,
         { books := replaceFirst (idMatches (parseIntString id))
                      (runAssignments (putAssignments body) book).1 s.books,
           nextId := s.nextId })) := by
  unfold putBooksId
  cases hf : findBookById s.books id with
  | none => exact Or.inl rfl
  | some book =>
    dsimp only
    cases hv : validateBook Y body with
    | error e => exact Or.inr (Or.inl rfl)
    | ok errors =>
      dsimp only
      by_cases hlen : errors.length > 0
      · exact Or.inr (Or.inr (Or.inl ⟨errors, rfl, hlen, by rw [if_pos hlen]⟩))
      · have hnil : errors = [] := by
          cases errors with
          | nil => rfl
          | cons a l => simp at hlen
        subst hnil
        rw [if_neg hlen]
        by_cases hc : (truthy body.isbn && !strictEq book.isbn body.isbn &&
            s.books.any (fun b => strictEq b.isbn body.isbn && b.id != book.id)) = true
        · exact Or.inr (Or.inr (Or.inr (Or.inl (by rw [if_pos hc]))))
        · refine Or.inr (Or.inr (Or.inr (Or.inr ⟨book, rfl, rfl, ?_⟩)))
          rw [if_neg hc]
          by_cases hr : (runAssignments (putAssignments body) book).2 = true
          · rw [if_pos hr, if_pos hr]
          · rw [if_neg hr, if_neg hr]

theorem findIndex_some (p : Book → Bool) :
    ∀ (l : List Book) (i : Nat), findIndex p l = some i →
      ∃ b, l[i]? = some b ∧ p b = true ∧ l.find? p = some b := by
  intro l
  induction l with
  | nil => intro i h; simp [findIndex] at h
  | cons x xs ih =>
    intro i h
    by_cases hp : p x = true
    · simp only [findIndex, hp, ↓reduceIte, Option.some.injEq] at h
      subst h
      exact ⟨x, by simp, hp, by simp [hp]⟩
    · simp only [findIndex, hp, Bool.false_eq_true, ↓reduceIte, Option.map_eq_some'] at h
      obtain ⟨j, hj, rfl⟩ := h
      obtain ⟨b, hb, hpb, hfind⟩ := ih j hj
      exact ⟨b, by simpa using hb, hpb, by simp [hp, hfind]⟩

theorem deleteBooksId_cases (s : Store) (id : String) :
    deleteBooksId s id = (notFound id, s) ∨
    (∃ i deletedBook, findIndex (idMatches (parseIntString id)) s.books = some i ∧
      s.books[i]? = some deletedBook ∧
      deleteBooksId s id =
        ({ status := 200, payload := .bookMessage "Book deleted successfully" deletedBook },
         { s with books := s.books.eraseIdx i })) := by
  unfold deleteBooksId
  cases hi : findIndex (idMatches (parseIntString id)) s.books with
  | none => exact Or.inl rfl
  | some i =>
    dsimp only
    obtain ⟨b, hb, _, _⟩ := findIndex_some _ s.books i hi
    rw [hb]
    exact Or.inr ⟨i, b, rfl, hb, rfl⟩

/-! ## Identifiers -/

theorem findBookById_some {bs : List Book} {id : String} {book : Book}
    (h : findBookById bs id = some book) :
    book ∈ bs ∧ idMatches (parseIntString id) book = true :=
  ⟨List.mem_of_find?_eq_some h, List.find?_some h⟩

theorem replaceFirst_map_id (p : Book → Bool) (b1 : Book) :
    ∀ (bs : List Book) (book : Book), bs.find? p = some book → b1.id = book.id →
      (replaceFirst p b1 bs).map (·.id) = bs.map (·.id) := by
  intro bs
  induction bs with
  | nil => intro book h; simp at h
  | cons x xs ih =>
    intro book h hid
    by_cases hp : p x = true
    · simp only [List.find?_cons, hp] at h
      cases h
      simp [replaceFirst, hp, hid]
    · simp only [List.find?_cons, hp] at h
      simp only [replaceFirst, hp, Bool.false_eq_true, ↓reduceIte, List.map_cons]
      rw [ih book h hid]

theorem postBooks_created {Y : Int} {s : Store} {body : Body} {m : String} {b : Book}
    (h : (postBooks Y s body).1 = { status := 201, payload := .bookMessage m b }) :
    validateBook Y body = .ok [] ∧ buildNewBook s.nextId body = .ok b ∧
    postBooks Y s body =
      ({ status := 201, payload := .bookMessage "Book created successfully" b },
       { books := s.books ++ [b], nextId := s.nextId + 1 }) := by
  rcases postBooks_cases Y s body with h1 | ⟨errors, _, _, h1⟩ | h1 | ⟨_, h1⟩ | ⟨b1, hv, hb, h1⟩
  · rw [h1] at h; cases h
  · rw [h1] at h; cases h
  · rw [h1] at h; cases h
  · rw [h1] at h; cases h
  · rw [h1] at h
    cases h
    exact ⟨hv, hb, h1⟩

theorem serve_nextId_le (Y : Int) (s : Store) (r : WriteRequest) :
    s.nextId ≤ (serve Y s r).2.nextId := by
  cases r with
  | post body =>
    simp only [serve]
    rcases postBooks_cases Y s body with h1 | ⟨errors, _, _, h1⟩ | h1 | ⟨_, h1⟩ | ⟨b1, _, _, h1⟩ <;>
      rw [h1] <;> first | exact Nat.le_refl _ | exact Nat.le_succ _
  | put id body =>
    simp only [serve]
    rcases putBooksId_cases Y s id body with h1 | h1 | ⟨errors, _, _, h1⟩ | h1 | ⟨b1, _, _, h1⟩ <;>
      rw [h1]
  | delete id =>
    simp only [serve]
    rcases deleteBooksId_cases s id with h1 | ⟨i, d, _, _, h1⟩ <;> rw [h1]

theorem serve_idsFresh (Y : Int) (s : Store) (r : WriteRequest) (h : IdsFresh s) :
    IdsFresh (serve Y s r).2 := by
  obtain ⟨hnd, hlt⟩ := h
  cases r with
  | post body =>
    simp only [serve]
    rcases postBooks_cases Y s body with h1 | ⟨errors, _, _, h1⟩ | h1 | ⟨_, h1⟩ | ⟨b1, _, hb, h1⟩
    · rw [h1]; exact ⟨hnd, hlt⟩
    · rw [h1]; exact ⟨hnd, hlt⟩
    · rw [h1]; exact ⟨hnd, hlt⟩
    · rw [h1]; exact ⟨hnd, fun b hb => Nat.lt_succ_of_lt (hlt b hb)⟩
    · rw [h1]
      have hid : b1.id = s.nextId := buildNewBook_id hb
      refine ⟨?_, ?_⟩
      · simp only [List.map_append, List.map_cons, List.map_nil]
        refine List.Nodup.append hnd (List.nodup_singleton _) ?_
        intro i hi hi1
        simp only [List.mem_singleton] at hi1
        obtain ⟨b, hbm, hbi⟩ := List.mem_map.1 hi
        have := hlt b hbm
        omega
      · intro b hbm
        simp only [List.mem_append, List.mem_singleton] at hbm
        rcases hbm with hbm | rfl
        · exact Nat.lt_succ_of_lt (hlt b hbm)
        · show b.id < s.nextId + 1
          omega
  | put id body =>
    simp only [serve]
    rcases putBooksId_cases Y s id body with h1 | h1 | ⟨errors, _, _, h1⟩ | h1 | ⟨book, hf, _, h1⟩
    · rw [h1]; exact ⟨hnd, hlt⟩
    · rw [h1]; exact ⟨hnd, hlt⟩
    · rw [h1]; exact ⟨hnd, hlt⟩
    · rw [h1]; exact ⟨hnd, hlt⟩
    · rw [h1]
      have hid := runAssignments_id (putAssignments body) (putAssignments_id body) book
      have hmap := replaceFirst_map_id (idMatches (parseIntString id))
        (runAssignments (putAssignments body) book).1 s.books book hf hid
      refine ⟨?_, ?_⟩
      · show (List.map (·.id) (replaceFirst _ _ s.books)).Nodup
        rw [hmap]; exact hnd
      · intro b hbm
        have hmem : b.id ∈ (replaceFirst (idMatches (parseIntString id))
            (runAssignments (putAssignments body) book).1 s.books).map (·.id) :=
          List.mem_map.2 ⟨b, hbm, rfl⟩
        rw [hmap] at hmem
        obtain ⟨b0, hb0, hb0i⟩ := List.mem_map.1 hmem
        have := hlt b0 hb0
        show b.id < s.nextId
        have hb0j : b0.id = b.id := hb0i
        omega
  | delete id =>
    simp only [serve]
    rcases deleteBooksId_cases s id with h1 | ⟨i, d, _, _, h1⟩
    · rw [h1]; exact ⟨hnd, hlt⟩
    · rw [h1]
      refine ⟨?_, ?_⟩
      · exact hnd.sublist ((List.eraseIdx_sublist s.books i).map _)
      · intro b hbm
        exact hlt b ((List.eraseIdx_sublist s.books i).subset hbm)

theorem run_nextId_le (Y : Int) (rs : List WriteRequest) :
    ∀ s : Store, s.nextId ≤ (run Y s rs).nextId := by
  induction rs with
  | nil => intro s; exact Nat.le_refl _
  | cons r rs ih =>
    intro s
    exact Nat.le_trans (serve_nextId_le Y s r) (ih _)

theorem run_idsFresh (Y : Int) (rs : List WriteRequest) :
    ∀ s : Store, IdsFresh s → IdsFresh (run Y s rs) := by
  induction rs with
  | nil => intro s h; exact h
  | cons r rs ih =>
    intro s h
    exact ih _ (serve_idsFresh Y s r h)

theorem assignedIds_bounds (Y : Int) (rs : List WriteRequest) :
    ∀ s : Store, ∀ i ∈ assignedIds Y s rs, s.nextId ≤ i ∧ i < (run Y s rs).nextId := by
  induction rs with
  | nil => intro s i hi; simp [assignedIds] at hi
  | cons r rs ih =>
    intro s i hi
    simp only [assignedIds, List.mem_append] at hi
    rcases hi with hi | hi
    · cases r with
      | post body =>
        simp only [serve] at hi
        rcases postBooks_cases Y s body with h1 | ⟨errors, _, _, h1⟩ | h1 | ⟨_, h1⟩ | ⟨b1, _, hb, h1⟩
        · rw [h1] at hi; simp [internalError] at hi
        · rw [h1] at hi; simp [validationFailed] at hi
        · rw [h1] at hi; simp [isbnConflict] at hi
        · rw [h1] at hi; simp [internalError] at hi
        · rw [h1] at hi
          simp only [List.mem_singleton] at hi
          have hid : b1.id = s.nextId := buildNewBook_id hb
          have hmono := run_nextId_le Y rs (serve Y s (.post body)).2
          simp only [serve, h1] at hmono
          simp only [run, serve, h1]
          omega
      | put id body => simp at hi
      | delete id => simp at hi
    · have h2 := ih _ i hi
      have h3 := serve_nextId_le Y s r
      exact ⟨Nat.le_trans h3 h2.1, h2.2⟩

theorem seedStore_idsFresh : IdsFresh seedStore := by
  refine ⟨by decide, ?_⟩
  intro b hb
  simp only [seedStore, books, List.mem_cons, List.mem_singleton, List.not_mem_nil, or_false] at hb
  rcases hb with rfl | rfl | rfl <;> decide

/-! ## The assignments of the update handler -/

theorem jsTrim_empty : jsTrim "" = "" := by decide

theorem assignTitle_str (body : Body) (book : Book) (t : String)
    (h : body.title = some (.str t)) (ht : jsTrim t ≠ "") :
    assignTitle body book = .ok { book with title := jsTrim t } := by
  have hne : t ≠ "" := fun h0 => ht (by rw [h0]; exact jsTrim_empty)
  simp [assignTitle, h, truthy, callTrim, hne, bind, Except.bind, pure, Except.pure]

theorem assignAuthor_str (body : Body) (book : Book) (a : String)
    (h : body.author = some (.str a)) (ha : jsTrim a ≠ "") :
    assignAuthor body book = .ok { book with author := jsTrim a } := by
  have hne : a ≠ "" := fun h0 => ha (by rw [h0]; exact jsTrim_empty)
  simp [assignAuthor, h, truthy, callTrim, hne, bind, Except.bind, pure, Except.pure]

theorem assignYear_none (body : Body) (book : Book) (h : body.year = none) :
    assignYear body book = .ok book := by
  simp [assignYear, h, bind, Except.bind, pure, Except.pure]

theorem assignYear_num (body : Body) (book : Book) (n : Int)
    (h : body.year = some (.num n)) (hn : 0 ≤ n) :
    assignYear body book = .ok { book with year := some (.int n) } := by
  simp [assignYear, h, jsParseInt, Json.toJsString, parseIntString_intToChars n hn,
    bind, Except.bind, pure, Except.pure]

theorem trimOrUndefined_str (g : String) :
    trimOrUndefined (some (.str g)) = .ok (if g = "" then none else some (jsTrim g)) := by
  by_cases hg : g = ""
  · subst hg; rfl
  · simp [trimOrUndefined, truthy, callTrim, hg, bind, Except.bind, pure, Except.pure]

theorem assignGenre_none (body : Body) (book : Book) (h : body.genre = none) :
    assignGenre body book = .ok book := by
  simp [assignGenre, h, bind, Except.bind, pure, Except.pure]

theorem assignGenre_str (body : Body) (book : Book) (g : String)
    (h : body.genre = some (.str g)) :
    assignGenre body book =
      .ok { book with genre := if g = "" then none else some (jsTrim g) } := by
  simp [assignGenre, h, trimOrUndefined_str, bind, Except.bind, pure, Except.pure]

theorem assignIsbn_none (body : Body) (book : Book) (h : body.isbn = none) :
    assignIsbn body book = .ok book := by
  simp [assignIsbn, h, bind, Except.bind, pure, Except.pure]

theorem assignIsbn_str (body : Body) (book : Book) (i : String)
    (h : body.isbn = some (.str i)) :
    assignIsbn body book =
      .ok { book with isbn := if i = "" then none else some (jsTrim i) } := by
  simp [assignIsbn, h, trimOrUndefined_str, bind, Except.bind, pure, Except.pure]

theorem find?_replaceFirst (p : Book → Bool) (b1 : Book) (hb1 : p b1 = true) :
    ∀ (bs : List Book) (book : Book), bs.find? p = some book →
      (replaceFirst p b1 bs).find? p = some b1 := by
  intro bs
  induction bs with
  | nil => intro book h; simp at h
  | cons x xs ih =>
    intro book h
    by_cases hp : p x = true
    · simp [replaceFirst, hp, hb1]
    · simp only [List.find?_cons, hp] at h
      simp only [replaceFirst, hp, Bool.false_eq_true, ↓reduceIte, List.find?_cons]
      exact ih book h

/-! ## Validation, continued -/

theorem titleMissing_of_blank (body : Body) (h : TitleBlank body) :
    titleMissing body = .ok true := by
  rcases h with h | ⟨t, h, ht⟩
  · unfold titleMissing; rw [h]; rfl
  · rw [titleMissing_str body t h, ht]; rfl

theorem titleMissing_absent_or_str (body : Body)
    (h : body.title = none ∨ ∃ t, body.title = some (.str t)) :
    ∃ c, titleMissing body = .ok c ∧ (c = true ↔ TitleBlank body) := by
  rcases h with h | ⟨t, h⟩
  · exact ⟨true, titleMissing_of_blank body (Or.inl h), by simp [TitleBlank, h]⟩
  · refine ⟨jsTrim t == "", titleMissing_str body t h, ?_⟩
    simp [TitleBlank, h]

theorem authorMissing_of_blank (body : Body) (h : AuthorBlank body) :
    authorMissing body = .ok true := by
  rcases h with h | ⟨a, h, ha⟩
  · unfold authorMissing; rw [h]; rfl
  · rw [authorMissing_str body a h, ha]; rfl

theorem authorMissing_absent_or_str (body : Body)
    (h : body.author = none ∨ ∃ a, body.author = some (.str a)) :
    ∃ c, authorMissing body = .ok c ∧ (c = true ↔ AuthorBlank body) := by
  rcases h with h | ⟨a, h⟩
  · exact ⟨true, authorMissing_of_blank body (Or.inl h), by simp [AuthorBlank, h]⟩
  · refine ⟨jsTrim a == "", authorMissing_str body a h, ?_⟩
    simp [AuthorBlank, h]

theorem yearInvalid_of_toNumber (Y : Int) (body : Body) (y : JsNumber)
    (h : toNumber body.year = .ok y) :
    yearInvalid Y body =
      .ok (truthy body.year && (y.isNaN || y.ltInt 1000 || y.gtInt Y)) := by
  unfold yearInvalid
  by_cases ht : truthy body.year = true
  · simp [ht, h, bind, Except.bind, pure, Except.pure]
  · simp [ht, pure, Except.pure]

theorem truthy_ne_none {v : Option Json} (h : truthy v = true) : v ≠ none := by
  intro h0
  rw [h0] at h
  cases h

theorem mem_messages (c1 c2 c3 : Bool) :
    (titleMessage ∈ (if c1 then [titleMessage] else []) ++
        (if c2 then [authorMessage] else []) ++ (if c3 then [yearMessage] else []) ↔
      c1 = true) ∧
    (authorMessage ∈ (if c1 then [titleMessage] else []) ++
        (if c2 then [authorMessage] else []) ++ (if c3 then [yearMessage] else []) ↔
      c2 = true) ∧
    (yearMessage ∈ (if c1 then [titleMessage] else []) ++
        (if c2 then [authorMessage] else []) ++ (if c3 then [yearMessage] else []) ↔
      c3 = true) ∧
    (((if c1 then [titleMessage] else []) ++
        (if c2 then [authorMessage] else []) ++ (if c3 then [yearMessage] else [])).Sublist
      [titleMessage, authorMessage, yearMessage]) ∧
    ((if c1 then [titleMessage] else []) ++
        (if c2 then [authorMessage] else []) ++ (if c3 then [yearMessage] else []) = [] ↔
      c1 = false ∧ c2 = false ∧ c3 = false) := by
  cases c1 <;> cases c2 <;> cases c3 <;> decide

/-! ## The create handler -/

theorem titleMissing_false {body : Body} (h : titleMissing body = .ok false) :
    ∃ t, body.title = some (.str t) ∧ jsTrim t ≠ "" ∧ callTrim body.title = .ok (jsTrim t) := by
  unfold titleMissing at h
  by_cases ht : truthy body.title = true
  · simp only [ht, Bool.not_true, Bool.false_eq_true, ↓reduceIte] at h
    cases hc : callTrim body.title with
    | error e => simp [hc, bind, Except.bind] at h
    | ok x =>
      obtain ⟨t, h1, rfl⟩ := callTrim_ok hc
      simp only [hc, bind, Except.bind, pure, Except.pure, Except.ok.injEq, beq_eq_false_iff_ne,
        ne_eq] at h
      exact ⟨t, h1, h, rfl⟩
  · simp [ht, pure, Except.pure] at h

theorem authorMissing_false {body : Body} (h : authorMissing body = .ok false) :
    ∃ a, body.author = some (.str a) ∧ jsTrim a ≠ "" ∧
      callTrim body.author = .ok (jsTrim a) := by
  unfold authorMissing at h
  by_cases ht : truthy body.author = true
  · simp only [ht, Bool.not_true, Bool.false_eq_true, ↓reduceIte] at h
    cases hc : callTrim body.author with
    | error e => simp [hc, bind, Except.bind] at h
    | ok x =>
      obtain ⟨a, h1, rfl⟩ := callTrim_ok hc
      simp only [hc, bind, Except.bind, pure, Except.pure, Except.ok.injEq, beq_eq_false_iff_ne,
        ne_eq] at h
      exact ⟨a, h1, h, rfl⟩
  · simp [ht, pure, Except.pure] at h

theorem toNumber_of_yearInvalid {Y : Int} {body : Body} {c : Bool}
    (h : yearInvalid Y body = .ok c) (ht : truthy body.year = true) :
    ∃ y, toNumber body.year = .ok y := by
  unfold yearInvalid at h
  simp only [ht, ↓reduceIte] at h
  cases hy : toNumber body.year with
  | error e => simp [hy, bind, Except.bind] at h
  | ok y => exact ⟨y, rfl⟩

theorem jsParseInt_of_toNumber {v : Option Json} {y : JsNumber} (h : toNumber v = .ok y) :
    ∃ k, jsParseInt v = .ok k := by
  cases v with
  | none => exact ⟨_, rfl⟩
  | some j =>
    cases hs : j.toJsString with
    | ok s => exact ⟨parseIntString s, by simp [jsParseInt, hs, bind, Except.bind, pure, Except.pure]⟩
    | error e =>
      exfalso
      cases j with
      | null => simp [Json.toJsString, pure, Except.pure] at hs
      | bool b => simp [Json.toJsString, pure, Except.pure] at hs
      | num n => simp [Json.toJsString, pure, Except.pure] at hs
      | str s => simp [Json.toJsString, pure, Except.pure] at hs
      | arr xs => simp [toNumber, hs, bind, Except.bind] at h
      | obj kvs => simp [toNumber, hs, bind, Except.bind] at h

theorem validateBook_nil {Y : Int} {body : Body} (h : validateBook Y body = .ok []) :
    titleMissing body = .ok false ∧ authorMissing body = .ok false ∧
      yearInvalid Y body = .ok false := by
  obtain ⟨c1, c2, c3, h1, h2, h3, hnil⟩ := validateBook_ok h
  have := (mem_messages c1 c2 c3).2.2.2.2.1 hnil.symm
  obtain ⟨rfl, rfl, rfl⟩ := this
  exact ⟨h1, h2, h3⟩

theorem trimOrUndefined_of_str_if_truthy {v : Option Json}
    (h : truthy v = true → ∃ g, v = some (.str g)) :
    ∃ r, trimOrUndefined v = .ok r := by
  by_cases ht : truthy v = true
  · obtain ⟨g, rfl⟩ := h ht
    exact ⟨_, trimOrUndefined_str g⟩
  · exact ⟨none, by simp [trimOrUndefined, ht, pure, Except.pure]⟩

/-! ## Filtering -/

theorem includesChars_iff (hay needle : List Char) :
    includesChars hay needle = true ↔ needle <:+: hay := by
  induction hay with
  | nil => simp [includesChars, List.isEmpty_iff]
  | cons c cs ih =>
    simp only [includesChars, Bool.or_eq_true, List.isPrefixOf_iff_prefix, ih]
    exact List.infix_cons_iff.symm

theorem jsIncludes_iff (rt : CaseTable) (text needle : String) :
    jsIncludes (rt.toLowerCase text) (rt.toLowerCase needle) = true ↔
      ContainsIgnoringCase rt text needle :=
  includesChars_iff _ _

theorem jsIncludes_eq_decide (rt : CaseTable) (text needle : String) :
    jsIncludes (rt.toLowerCase text) (rt.toLowerCase needle) =
      decide (ContainsIgnoringCase rt text needle) := by
  rw [Bool.eq_iff_iff, jsIncludes_iff]
  simp

theorem toLowerCase_empty (rt : CaseTable) : rt.toLowerCase "" = "" := by
  rw [rt.lower_ascii "" (by decide)]
  decide

theorem containsIgnoringCase_empty (rt : CaseTable) (text : String) :
    ContainsIgnoringCase rt text "" := by
  unfold ContainsIgnoringCase
  rw [toLowerCase_empty]
  exact List.nil_infix

theorem not_containsIgnoringCase_in_empty (rt : CaseTable) {needle : String}
    (h : needle ≠ "") : ¬ ContainsIgnoringCase rt "" needle := by
  unfold ContainsIgnoringCase
  intro hc
  rw [toLowerCase_empty] at hc
  have hd : (rt.toLowerCase needle).data = [] := List.infix_nil.1 hc
  exact h (rt.lower_eq_empty needle (String.ext hd))

theorem filter_author_stage (rt : CaseTable) (q : Option String) (l : List Book) :
    (if truthyParam q = true then
        l.filter (fun book =>
          jsIncludes (rt.toLowerCase book.author) (rt.toLowerCase (q.getD "")))
      else l) =
      l.filter (fun book =>
        match q with
        | none => true
        | some a => decide (ContainsIgnoringCase rt book.author a)) := by
  cases q with
  | none => simp [truthyParam]
  | some a =>
    by_cases ha : a = ""
    · subst ha
      simp [truthyParam, containsIgnoringCase_empty]
    · simp [truthyParam, ha, jsIncludes_eq_decide]

theorem filter_genre_stage (rt : CaseTable) (q : Option String) (l : List Book) :
    (if truthyParam q = true then
        l.filter (fun book =>
          match book.genre with
          | none => false
          | some g => g != "" &&
              jsIncludes (rt.toLowerCase g) (rt.toLowerCase (q.getD "")))
      else l) =
      l.filter (fun book =>
        match q with
        | none => true
        | some g =>
          g == "" ||
          match book.genre with
          | none => false
          | some bg => decide (ContainsIgnoringCase rt bg g)) := by
  cases q with
  | none => simp [truthyParam]
  | some g =>
    by_cases hg : g = ""
    · subst hg
      simp [truthyParam]
    · simp only [truthyParam, bne_iff_ne, ne_eq, hg, not_false_eq_true, ↓reduceIte,
        Option.getD_some, beq_iff_eq, Bool.false_or]
      congr 1
      funext book
      have hge : (g == "") = false := by simp [hg]
      cases hb : book.genre with
      | none => simp [hge]
      | some bg =>
        by_cases hbg : bg = ""
        · subst hbg
          simp [not_containsIgnoringCase_in_empty rt hg, hg]
        · have hbe : (bg != "") = true := bne_iff_ne.2 hbg
          show (bg != "" && jsIncludes (rt.toLowerCase bg) (rt.toLowerCase g)) =
            (g == "" || decide (ContainsIgnoringCase rt bg g))
          rw [hbe, hge, jsIncludes_eq_decide, Bool.true_and, Bool.false_or]

theorem filter_available_stage (rt : CaseTable) (q : Option String) (l : List Book) :
    (match q with
      | some a => l.filter (fun book => book.available == (rt.toLowerCase a == "true"))
      | none => l) =
      l.filter (fun book =>
        match q with
        | none => true
        | some v => book.available == (rt.toLowerCase v == "true")) := by
  cases q with
  | none => simp
  | some a => rfl

theorem filter_search_stage (rt : CaseTable) (q : Option String) (l : List Book) :
    (if truthyParam q = true then
        l.filter (fun book =>
          jsIncludes (rt.toLowerCase book.title) (rt.toLowerCase (q.getD "")) ||
          jsIncludes (rt.toLowerCase book.author) (rt.toLowerCase (q.getD "")))
      else l) =
      l.filter (fun book =>
        match q with
        | none => true
        | some t =>
          decide (ContainsIgnoringCase rt book.title t) ||
          decide (ContainsIgnoringCase rt book.author t)) := by
  cases q with
  | none => simp [truthyParam]
  | some t =>
    by_cases ht : t = ""
    · subst ht
      simp [truthyParam, containsIgnoringCase_empty]
    · simp [truthyParam, ht, jsIncludes_eq_decide]

theorem getBooks_eq_filter (rt : CaseTable) (s : Store) (query : Query) :
    getBooks rt s query =
      ({ status := 200,
         payload := .bookList (s.books.filter (satisfiesCriteriaAmended rt query)).length
           (s.books.filter (satisfiesCriteriaAmended rt query)) }, s) := by
  have hfilter :
      (let filteredBooks := s.books
        let filteredBooks :=
          if truthyParam query.author then
            filteredBooks.filter (fun book =>
              jsIncludes (rt.toLowerCase book.author)
                (rt.toLowerCase (query.author.getD "")))
          else filteredBooks
        let filteredBooks :=
          if truthyParam query.genre then
            filteredBooks.filter (fun book =>
              match book.genre with
              | none => false
              | some g => g != "" &&
                  jsIncludes (rt.toLowerCase g) (rt.toLowerCase (query.genre.getD "")))
          else filteredBooks
        let filteredBooks :=
          match query.available with
          | some a =>
            let isAvailable := rt.toLowerCase a == "true"
            filteredBooks.filter (fun book => book.available == isAvailable)
          | none => filteredBooks
        let filteredBooks :=
          if truthyParam query.search then
            let searchTerm := rt.toLowerCase (query.search.getD "")
            filteredBooks.filter (fun book =>
              jsIncludes (rt.toLowerCase book.title) searchTerm ||
              jsIncludes (rt.toLowerCase book.author) searchTerm)
          else filteredBooks
        filteredBooks) = s.books.filter (satisfiesCriteriaAmended rt query) := by
    simp only []
    rw [filter_search_stage, filter_available_stage, filter_genre_stage, filter_author_stage,
      List.filter_filter, List.filter_filter, List.filter_filter]
    congr 1
    funext book
    unfold satisfiesCriteriaAmended
    generalize (match query.author with
      | none => true
      | some a => decide (ContainsIgnoringCase rt book.author a)) = c1
    generalize (match query.genre with
      | none => true
      | some g =>
        g == "" ||
        match book.genre with
        | none => false
        | some bg => decide (ContainsIgnoringCase rt bg g)) = c2
    generalize (match query.available with
      | none => true
      | some v => book.available == (rt.toLowerCase v == "true")) = c3
    generalize (match query.search with
      | none => true
      | some t =>
        decide (ContainsIgnoringCase rt book.title t) ||
        decide (ContainsIgnoringCase rt book.author t)) = c4
    cases c1 <;> cases c2 <;> cases c3 <;> cases c4 <;> rfl
  unfold getBooks
  simp only [] at hfilter ⊢
  rw [hfilter]

/-! ## Case tables on ASCII text -/

theorem toLowerCase_ascii (rt : CaseTable) (s : String) (h : isAscii s = true) :
    rt.toLowerCase s = asciiCaseTable.toLowerCase s :=
  rt.lower_ascii s h

theorem containsIgnoringCase_ascii (rt : CaseTable) (text needle : String)
    (ht : isAscii text = true) (hn : isAscii needle = true) :
    ContainsIgnoringCase rt text needle ↔ ContainsIgnoringCase asciiCaseTable text needle := by
  unfold ContainsIgnoringCase
  rw [toLowerCase_ascii rt text ht, toLowerCase_ascii rt needle hn]

theorem decide_containsIgnoringCase_ascii (rt : CaseTable) (text needle : String)
    (ht : isAscii text = true) (hn : isAscii needle = true) :
    decide (ContainsIgnoringCase rt text needle) =
      decide (ContainsIgnoringCase asciiCaseTable text needle) :=
  decide_eq_decide.2 (containsIgnoringCase_ascii rt text needle ht hn)

theorem satisfiesCriteriaAmended_ascii (rt : CaseTable) (query : Query) (book : Book)
    (hq : asciiQuery query = true) (hb : asciiBook book = true) :
    satisfiesCriteriaAmended rt query book =
      satisfiesCriteriaAmended asciiCaseTable query book := by
  simp only [asciiQuery, asciiBook, Bool.and_eq_true] at hq hb
  obtain ⟨⟨⟨q1, q2⟩, q3⟩, q4⟩ := hq
  obtain ⟨⟨b1, b2⟩, b3⟩ := hb
  unfold satisfiesCriteriaAmended
  have e1 : (match query.author with
      | none => true
      | some a => decide (ContainsIgnoringCase rt book.author a)) =
      (match query.author with
      | none => true
      | some a => decide (ContainsIgnoringCase asciiCaseTable book.author a)) := by
    cases ha : query.author with
    | none => rfl
    | some a =>
      rw [ha] at q1
      exact decide_containsIgnoringCase_ascii rt _ _ b2 (by simpa using q1)
  have e2 : (match query.genre with
      | none => true
      | some g =>
        g == "" ||
        match book.genre with
        | none => false
        | some bg => decide (ContainsIgnoringCase rt bg g)) =
      (match query.genre with
      | none => true
      | some g =>
        g == "" ||
        match book.genre with
        | none => false
        | some bg => decide (ContainsIgnoringCase asciiCaseTable bg g)) := by
    cases hg : query.genre with
    | none => rfl
    | some g =>
      rw [hg] at q2
      cases hbg : book.genre with
      | none => rfl
      | some bg =>
        rw [hbg] at b3
        have h := decide_containsIgnoringCase_ascii rt bg g (by simpa using b3)
          (by simpa using q2)
        simp only [h]
  have e3 : (match query.available with
      | none => true
      | some v => book.available == (rt.toLowerCase v == "true")) =
      (match query.available with
      | none => true
      | some v => book.available == (asciiCaseTable.toLowerCase v == "true")) := by
    cases hv : query.available with
    | none => rfl
    | some v =>
      rw [hv] at q3
      simp only [toLowerCase_ascii rt v (by simpa using q3)]
  have e4 : (match query.search with
      | none => true
      | some t =>
        decide (ContainsIgnoringCase rt book.title t) ||
        decide (ContainsIgnoringCase rt book.author t)) =
      (match query.search with
      | none => true
      | some t =>
        decide (ContainsIgnoringCase asciiCaseTable book.title t) ||
        decide (ContainsIgnoringCase asciiCaseTable book.author t)) := by
    cases ht : query.search with
    | none => rfl
    | some t =>
      rw [ht] at q4
      have h1 := decide_containsIgnoringCase_ascii rt book.title t b1 (by simpa using q4)
      have h2 := decide_containsIgnoringCase_ascii rt book.author t b2 (by simpa using q4)
      simp only [h1, h2]
  rw [e1, e2, e3, e4]

theorem getBooks_ascii (rt : CaseTable) (s : Store) (query : Query)
    (hq : asciiQuery query = true) (hs : ∀ b ∈ s.books, asciiBook b = true) :
    getBooks rt s query = getBooks asciiCaseTable s query := by
  rw [getBooks_eq_filter rt, getBooks_eq_filter asciiCaseTable]
  have hf : s.books.filter (satisfiesCriteriaAmended rt query) =
      s.books.filter (satisfiesCriteriaAmended asciiCaseTable query) :=
    List.filter_congr (fun b hb => satisfiesCriteriaAmended_ascii rt query b hq (hs b hb))
  rw [hf]

/-! ## Lookup by id -/

theorem idMatches_iff (id : String) (b : Book) :
    idMatches (parseIntString id) b = true ↔ HasParsedId id b := by
  unfold idMatches HasParsedId
  cases parseIntString id with
  | nan => simp
  | int n => simp

theorem findBookById_eq_some_iff (bs : List Book) (id : String) (b : Book) :
    findBookById bs id = some b ↔ FirstWithParsedId id bs b := by
  unfold findBookById FirstWithParsedId
  rw [List.find?_eq_some]
  constructor
  · rintro ⟨hb, l1, l2, hl, hno⟩
    refine ⟨l1, l2, hl, (idMatches_iff id b).1 hb, fun x hx hx1 => ?_⟩
    have := hno x hx
    rw [(idMatches_iff id x).2 hx1] at this
    cases this
  · rintro ⟨l1, l2, hl, hb, hno⟩
    refine ⟨(idMatches_iff id b).2 hb, l1, l2, hl, fun x hx => ?_⟩
    cases hm : idMatches (parseIntString id) x with
    | false => rfl
    | true => exact absurd ((idMatches_iff id x).1 hm) (hno x hx)

theorem findBookById_eq_none_iff (bs : List Book) (id : String) :
    findBookById bs id = none ↔ ∀ b ∈ bs, ¬ HasParsedId id b := by
  unfold findBookById
  rw [List.find?_eq_none]
  constructor
  · intro h b hb hb1
    exact h b hb ((idMatches_iff id b).2 hb1)
  · intro h b hb hb1
    exact h b hb ((idMatches_iff id b).1 hb1)

theorem firstWithParsedId_of_mem (bs : List Book) (id : String)
    (h : ∃ b ∈ bs, HasParsedId id b) : ∃ b, FirstWithParsedId id bs b := by
  cases hf : findBookById bs id with
  | some b => exact ⟨b, (findBookById_eq_some_iff bs id b).1 hf⟩
  | none =>
    obtain ⟨b, hb, hb1⟩ := h
    exact absurd hb1 ((findBookById_eq_none_iff bs id).1 hf b hb)

theorem findIndex_append (p : Book → Bool) (b : Book) (hb : p b = true) :
    ∀ (l1 l2 : List Book), (∀ x ∈ l1, p x = false) →
      findIndex p (l1 ++ b :: l2) = some l1.length := by
  intro l1
  induction l1 with
  | nil => intro l2 _; simp [findIndex, hb]
  | cons x xs ih =>
    intro l2 hno
    have hx : p x = false := hno x (List.mem_cons_self _ _)
    have := ih l2 (fun y hy => hno y (List.mem_cons_of_mem _ hy))
    simp [findIndex, hx, this]

theorem replaceFirst_append (p : Book → Bool) (b b1 : Book) (hb : p b = true) :
    ∀ (l1 l2 : List Book), (∀ x ∈ l1, p x = false) →
      replaceFirst p b1 (l1 ++ b :: l2) = l1 ++ b1 :: l2 := by
  intro l1
  induction l1 with
  | nil => intro l2 _; simp [replaceFirst, hb]
  | cons x xs ih =>
    intro l2 hno
    have hx : p x = false := hno x (List.mem_cons_self _ _)
    have := ih l2 (fun y hy => hno y (List.mem_cons_of_mem _ hy))
    simp [replaceFirst, hx, this]

theorem not_idMatches_of_not_hasParsedId {id : String} {x : Book} (h : ¬ HasParsedId id x) :
    idMatches (parseIntString id) x = false := by
  cases hm : idMatches (parseIntString id) x with
  | false => rfl
  | true => exact absurd ((idMatches_iff id x).1 hm) h

/-! ## Routing -/

theorem findBookById_nan (bs : List Book) (id : String) (h : parseIntString id = .nan) :
    findBookById bs id = none := by
  rw [findBookById_eq_none_iff]
  rintro b _ ⟨n, hn, _⟩
  rw [h] at hn
  cases hn

/-! ## Trimming -/

theorem trimStartChars_head (l : List Char) (c : Char) (rest : List Char)
    (h : trimStartChars l = c :: rest) : isJsWhiteSpace c = false := by
  induction l with
  | nil => simp [trimStartChars] at h
  | cons x xs ih =>
    unfold trimStartChars at h
    by_cases hx : isJsWhiteSpace x = true
    · rw [if_pos hx] at h
      exact ih h
    · rw [if_neg hx] at h
      cases h
      simpa using hx

theorem trimStartChars_of_head (c : Char) (rest : List Char) (h : isJsWhiteSpace c = false) :
    trimStartChars (c :: rest) = c :: rest := by
  simp [trimStartChars, h]

theorem trimStartChars_idem (l : List Char) :
    trimStartChars (trimStartChars l) = trimStartChars l := by
  cases h : trimStartChars l with
  | nil => rfl
  | cons c rest => exact trimStartChars_of_head c rest (trimStartChars_head l c rest h)

theorem trimStartChars_suffix (l : List Char) : ∃ p, l = p ++ trimStartChars l := by
  induction l with
  | nil => exact ⟨[], rfl⟩
  | cons x xs ih =>
    unfold trimStartChars
    by_cases hx : isJsWhiteSpace x = true
    · rw [if_pos hx]
      obtain ⟨p, hp⟩ := ih
      exact ⟨x :: p, by rw [List.cons_append, ← hp]⟩
    · rw [if_neg hx]
      exact ⟨[], rfl⟩

theorem trimChars_idem (cs : List Char) : trimChars (trimChars cs) = trimChars cs := by
  unfold trimChars
  have hb : trimStartChars (trimStartChars (trimStartChars cs).reverse).reverse =
      (trimStartChars (trimStartChars cs).reverse).reverse := by
    obtain ⟨p, hp⟩ := trimStartChars_suffix (trimStartChars cs).reverse
    cases hr : (trimStartChars (trimStartChars cs).reverse).reverse with
    | nil => rfl
    | cons c rest =>
      have ha : trimStartChars cs = c :: (rest ++ p.reverse) := by
        have := congrArg List.reverse hp
        rw [List.reverse_reverse, List.reverse_append, hr] at this
        simpa using this
      exact trimStartChars_of_head c rest (trimStartChars_head cs c _ ha)
  rw [hb, List.reverse_reverse, trimStartChars_idem]

theorem jsTrim_idem (s : String) : jsTrim (jsTrim s) = jsTrim s := by
  unfold jsTrim
  rw [trimChars_idem]

theorem trimOrUndefined_trimmed {v : Option Json} {r : Option String}
    (h : trimOrUndefined v = .ok r) : ∀ x, r = some x → jsTrim x = x := by
  intro x hx
  subst hx
  unfold trimOrUndefined at h
  by_cases ht : truthy v = true
  · rw [if_pos ht] at h
    cases hc : callTrim v with
    | error e => simp [hc, bind, Except.bind] at h
    | ok t =>
      obtain ⟨s, _, rfl⟩ := callTrim_ok hc
      simp only [hc, bind, Except.bind, pure, Except.pure, Except.ok.injEq,
        Option.some.injEq] at h
      rw [← h]
      exact jsTrim_idem s
  · rw [if_neg ht] at h
    cases h

/-! ## Stored texts -/

theorem buildNewBook_ok {id : Nat} {body : Body} {b : Book}
    (h : buildNewBook id body = .ok b) :
    callTrim body.title = .ok b.title ∧ callTrim body.author = .ok b.author ∧
    trimOrUndefined body.genre = .ok b.genre ∧ trimOrUndefined body.isbn = .ok b.isbn := by
  unfold buildNewBook at h
  cases h1 : callTrim body.title with
  | error e => simp [h1, bind, Except.bind] at h
  | ok t =>
    cases h2 : callTrim body.author with
    | error e => simp [h1, h2, bind, Except.bind] at h
    | ok a =>
      cases h3 : parseIntOrUndefined body.year with
      | error e => simp [h1, h2, h3, bind, Except.bind] at h
      | ok y =>
        cases h4 : trimOrUndefined body.genre with
        | error e => simp [h1, h2, h3, h4, bind, Except.bind] at h
        | ok g =>
          cases h5 : trimOrUndefined body.isbn with
          | error e => simp [h1, h2, h3, h4, h5, bind, Except.bind] at h
          | ok i =>
            simp only [h1, h2, h3, h4, h5, bind, Except.bind, pure, Except.pure,
              Except.ok.injEq] at h
            subst h
            exact ⟨rfl, rfl, rfl, rfl⟩

theorem wellStored_of_built {Y : Int} {id : Nat} {body : Body} {b : Book}
    (hv : validateBook Y body = .ok []) (h : buildNewBook id body = .ok b) :
    WellStored b := by
  obtain ⟨h1, h2, _⟩ := validateBook_nil hv
  obtain ⟨t, _, ht, hct⟩ := titleMissing_false h1
  obtain ⟨a, _, ha, hca⟩ := authorMissing_false h2
  obtain ⟨b1, b2, b3, b4⟩ := buildNewBook_ok h
  rw [hct] at b1
  rw [hca] at b2
  have e1 : b.title = jsTrim t := (Except.ok.inj b1).symm
  have e2 : b.author = jsTrim a := (Except.ok.inj b2).symm
  refine ⟨by rw [e1]; exact ht, by rw [e2]; exact ha, by rw [e1]; exact jsTrim_idem t,
    by rw [e2]; exact jsTrim_idem a, trimOrUndefined_trimmed b3, trimOrUndefined_trimmed b4⟩

theorem putAssignments_wellStored {Y : Int} {body : Body}
    (hv : validateBook Y body = .ok []) :
    ∀ f ∈ putAssignments body, ∀ b b1 : Book, WellStored b → f b = .ok b1 → WellStored b1 := by
  obtain ⟨h1, h2, _⟩ := validateBook_nil hv
  obtain ⟨t, htitle, ht, hct⟩ := titleMissing_false h1
  obtain ⟨a, hauthor, ha, hca⟩ := authorMissing_false h2
  intro f hf b b1 hw h
  obtain ⟨w1, w2, w3, w4, w5, w6⟩ := hw
  simp only [putAssignments, List.mem_cons, List.mem_singleton, List.not_mem_nil, or_false] at hf
  rcases hf with rfl | rfl | rfl | rfl | rfl | rfl
  · rw [assignTitle_str body b t htitle ht] at h
    cases h
    exact ⟨ht, w2, jsTrim_idem t, w4, w5, w6⟩
  · rw [assignAuthor_str body b a hauthor ha] at h
    cases h
    exact ⟨w1, ha, w3, jsTrim_idem a, w5, w6⟩
  · simp only [assignYear, bind, Except.bind, pure, Except.pure] at h
    repeat' split at h
    all_goals first
      | (cases h; done)
      | (cases h; exact ⟨w1, w2, w3, w4, w5, w6⟩)
  · unfold assignGenre at h
    by_cases hg : body.genre.isSome = true
    · rw [if_pos hg] at h
      cases hc : trimOrUndefined body.genre with
      | error e => simp [hc, bind, Except.bind] at h
      | ok g =>
        simp only [hc, bind, Except.bind, pure, Except.pure, Except.ok.injEq] at h
        subst h
        exact ⟨w1, w2, w3, w4, trimOrUndefined_trimmed hc, w6⟩
    · rw [if_neg hg] at h
      simp only [bind, Except.bind, pure, Except.pure, Except.ok.injEq] at h
      subst h
      exact ⟨w1, w2, w3, w4, w5, w6⟩
  · unfold assignIsbn at h
    by_cases hg : body.isbn.isSome = true
    · rw [if_pos hg] at h
      cases hc : trimOrUndefined body.isbn with
      | error e => simp [hc, bind, Except.bind] at h
      | ok g =>
        simp only [hc, bind, Except.bind, pure, Except.pure, Except.ok.injEq] at h
        subst h
        exact ⟨w1, w2, w3, w4, w5, trimOrUndefined_trimmed hc⟩
    · rw [if_neg hg] at h
      simp only [bind, Except.bind, pure, Except.pure, Except.ok.injEq] at h
      subst h
      exact ⟨w1, w2, w3, w4, w5, w6⟩
  · simp only [assignAvailable, pure, Except.pure, Except.ok.injEq] at h
    subst h
    exact ⟨w1, w2, w3, w4, w5, w6⟩

theorem runAssignments_preserves (P : Book → Prop)
    (fs : List (Book → Except JsError Book))
    (hfs : ∀ f ∈ fs, ∀ b b1 : Book, P b → f b = .ok b1 → P b1) (book : Book) (h : P book) :
    P (runAssignments fs book).1 := by
  induction fs generalizing book with
  | nil => exact h
  | cons f fs ih =>
    simp only [runAssignments]
    split
    · rename_i b1 h1
      exact ih (fun g hg => hfs g (List.mem_cons_of_mem _ hg)) b1
        (hfs f (List.mem_cons_self _ _) book b1 h h1)
    · exact h

theorem mem_replaceFirst (p : Book → Bool) (b1 : Book) :
    ∀ (l : List Book) (x : Book), x ∈ replaceFirst p b1 l → x = b1 ∨ x ∈ l := by
  intro l
  induction l with
  | nil => intro x hx; simp [replaceFirst] at hx
  | cons y ys ih =>
    intro x hx
    unfold replaceFirst at hx
    by_cases hp : p y = true
    · rw [if_pos hp] at hx
      rcases List.mem_cons.1 hx with h | h
      · exact Or.inl h
      · exact Or.inr (List.mem_cons_of_mem _ h)
    · rw [if_neg hp] at hx
      rcases List.mem_cons.1 hx with h | h
      · exact Or.inr (h ▸ List.mem_cons_self _ _)
      · rcases ih x h with h1 | h1
        · exact Or.inl h1
        · exact Or.inr (List.mem_cons_of_mem _ h1)

theorem serve_wellStored (Y : Int) (s : Store) (r : WriteRequest)
    (h : ∀ b ∈ s.books, WellStored b) : ∀ b ∈ (serve Y s r).2.books, WellStored b := by
  cases r with
  | post body =>
    simp only [serve]
    rcases postBooks_cases Y s body with h1 | ⟨errors, _, _, h1⟩ | h1 | ⟨_, h1⟩ |
      ⟨b1, hv, hb, h1⟩
    · rw [h1]; exact h
    · rw [h1]; exact h
    · rw [h1]; exact h
    · rw [h1]; exact h
    · rw [h1]
      intro b hbm
      rcases List.mem_append.1 hbm with hbm | hbm
      · exact h b hbm
      · rw [List.mem_singleton.1 hbm]
        exact wellStored_of_built hv hb
  | put id body =>
    simp only [serve]
    rcases putBooksId_cases Y s id body with h1 | h1 | ⟨errors, _, _, h1⟩ | h1 |
      ⟨book, hf, hv, h1⟩
    · rw [h1]; exact h
    · rw [h1]; exact h
    · rw [h1]; exact h
    · rw [h1]; exact h
    · rw [h1]
      intro b hbm
      rcases mem_replaceFirst _ _ s.books b hbm with hb | hb
      · rw [hb]
        exact runAssignments_preserves WellStored _ (putAssignments_wellStored hv) book
          (h book (findBookById_some hf).1)
      · exact h b hb
  | delete id =>
    simp only [serve]
    rcases deleteBooksId_cases s id with h1 | ⟨i, d, _, _, h1⟩
    · rw [h1]; exact h
    · rw [h1]
      intro b hbm
      exact h b ((List.eraseIdx_sublist s.books i).subset hbm)

theorem run_wellStored (Y : Int) (rs : List WriteRequest) :
    ∀ s : Store, (∀ b ∈ s.books, WellStored b) → ∀ b ∈ (run Y s rs).books, WellStored b := by
  induction rs with
  | nil => intro s h; exact h
  | cons r rs ih =>
    intro s h
    exact ih _ (serve_wellStored Y s r h)

theorem seedStore_wellStored : ∀ b ∈ seedStore.books, WellStored b := by
  intro b hb
  simp only [seedStore, books, List.mem_cons, List.mem_singleton, List.not_mem_nil,
    or_false] at hb
  rcases hb with rfl | rfl | rfl
  all_goals
    refine ⟨by decide, by decide, by decide, by decide, ?_, ?_⟩
    all_goals
      intro x hx
      cases hx
      decide

/-! ## The update handler -/

/-- A 200 answer of the update handler implies that the body supplied a title
and an author, both strings that are not blank: an update that leaves either
out is never carried out. -/
theorem putBooksId_ok_has_title_and_author (Y : Int) (s : Store) (id : String) (body : Body)
    (h : (putBooksId Y s id body).1.status = 200) :
    ∃ t a, body.title = some (.str t) ∧ jsTrim t ≠ "" ∧
      body.author = some (.str a) ∧ jsTrim a ≠ "" := by
  rcases putBooksId_cases Y s id body with h1 | h1 | ⟨errors, _, _, h1⟩ | h1 |
    ⟨book, _, hv, _⟩
  · rw [h1] at h
    simp [notFound] at h
  · rw [h1] at h
    simp [internalError] at h
  · rw [h1] at h
    simp [validationFailed] at h
  · rw [h1] at h
    simp [isbnConflict] at h
  · obtain ⟨ht, ha, _⟩ := validateBook_nil hv
    obtain ⟨t, ht1, ht2, _⟩ := titleMissing_false ht
    obtain ⟨a, ha1, ha2, _⟩ := authorMissing_false ha
    exact ⟨t, a, ht1, ht2, ha1, ha2⟩

/-- Update with the required fields: when the store has a book with id `i` (the
first match `book`) and the body supplies a non-blank title and author, and any subset of year (an
integer between 1000 and the current year), genre (a string), isbn (a string
held by no other book) and available (a boolean), the answer is 200, the
record takes the trimmed title and author, every supplied optional field takes
the supplied value (trimmed for strings; an empty genre or isbn clears the
field), every optional field absent from the body keeps its prior value, and
looking the id up again finds the updated record. -/
theorem put_updates_supplied_fields (Y : Int) (s : Store) (id : String) (book : Book)
    (body : Body) (t a : String)
    (hfind : findBookById s.books id = some book)
    (htitle : body.title = some (.str t)) (ht : jsTrim t ≠ "")
    (hauthor : body.author = some (.str a)) (ha : jsTrim a ≠ "")
    (hyear : body.year = none ∨ ∃ n, body.year = some (.num n) ∧ 1000 ≤ n ∧ n ≤ Y)
    (hgenre : body.genre = none ∨ ∃ g, body.genre = some (.str g))
    (hisbn : body.isbn = none ∨ ∃ i, body.isbn = some (.str i) ∧
      ∀ b ∈ s.books, b.isbn = some i → b.id = book.id)
    (havailable : body.available = none ∨ ∃ v, body.available = some (.bool v)) :
    ∃ updated : Book,
      putBooksId Y s id body =
        ({ status := 200, payload := .bookMessage "Book updated successfully" updated },
         { books := replaceFirst (idMatches (parseIntString id)) updated s.books,
           nextId := s.nextId }) ∧
      findBookById (putBooksId Y s id body).2.books id = some updated ∧
      updated.id = book.id ∧ updated.title = jsTrim t ∧ updated.author = jsTrim a ∧
      updated.year = (match body.year with
        | some (.num n) => some (.int n)
        | _ => book.year) ∧
      updated.genre = (match body.genre with
        | some (.str g) => if g = "" then none else some (jsTrim g)
        | _ => book.genre) ∧
      updated.isbn = (match body.isbn with
        | some (.str i) => if i = "" then none else some (jsTrim i)
        | _ => book.isbn) ∧
      updated.available = (match body.available with
        | some (.bool v) => v
        | _ => book.available) := by
  -- validation passes
  have hy : yearInvalid Y body = .ok false := by
    rcases hyear with h | ⟨n, h, h1, h2⟩
    · exact yearInvalid_none Y body h
    · rw [yearInvalid_num Y body n h]
      have h3 : ¬ n < 1000 := by omega
      have h4 : ¬ Y < n := by omega
      simp [h3, h4]
  have hv : validateBook Y body = .ok [] := by
    rw [validateBook_of_checks (titleMissing_str body t htitle)
      (authorMissing_str body a hauthor) hy]
    simp [ht, ha]
  -- the duplicate test does not fire
  have hc : ¬ (truthy body.isbn && !strictEq book.isbn body.isbn &&
      s.books.any (fun b => strictEq b.isbn body.isbn && b.id != book.id)) = true := by
    rcases hisbn with h | ⟨i, h, hfree⟩
    · simp [h, truthy]
    · rw [h]
      intro hcon
      simp only [Bool.and_eq_true, List.any_eq_true] at hcon
      obtain ⟨_, b, hb, hb1, hb2⟩ := hcon
      have hbi : b.isbn = some i := by
        cases hbisbn : b.isbn with
        | none => simp [strictEq, hbisbn] at hb1
        | some j =>
          simp only [strictEq, hbisbn, beq_iff_eq] at hb1
          rw [hb1]
      have := hfree b hb hbi
      simp [this] at hb2
  -- the six assignments
  have hrun : ∃ updated : Book,
      runAssignments (putAssignments body) book = (updated, true) ∧
      updated.id = book.id ∧ updated.title = jsTrim t ∧ updated.author = jsTrim a ∧
      updated.year = (match body.year with
        | some (.num n) => some (.int n)
        | _ => book.year) ∧
      updated.genre = (match body.genre with
        | some (.str g) => if g = "" then none else some (jsTrim g)
        | _ => book.genre) ∧
      updated.isbn = (match body.isbn with
        | some (.str i) => if i = "" then none else some (jsTrim i)
        | _ => book.isbn) ∧
      updated.available = (match body.available with
        | some (.bool v) => v
        | _ => book.available) := by
    have hY : ∀ bk : Book, assignYear body bk = .ok { bk with year :=
        match body.year with
        | some (.num n) => some (.int n)
        | _ => bk.year } := by
      intro bk
      rcases hyear with h | ⟨n, h, hn, _⟩
      · rw [assignYear_none _ _ h, h]
      · rw [assignYear_num _ _ _ h (by omega), h]
    have hG : ∀ bk : Book, assignGenre body bk = .ok { bk with genre :=
        match body.genre with
        | some (.str g) => if g = "" then none else some (jsTrim g)
        | _ => bk.genre } := by
      intro bk
      rcases hgenre with h | ⟨g, h⟩
      · rw [assignGenre_none _ _ h, h]
      · rw [assignGenre_str _ _ _ h, h]
    have hI : ∀ bk : Book, assignIsbn body bk = .ok { bk with isbn :=
        match body.isbn with
        | some (.str i) => if i = "" then none else some (jsTrim i)
        | _ => bk.isbn } := by
      intro bk
      rcases hisbn with h | ⟨i, h, _⟩
      · rw [assignIsbn_none _ _ h, h]
      · rw [assignIsbn_str _ _ _ h, h]
    have hA : ∀ bk : Book, assignAvailable body bk = .ok { bk with available :=
        match body.available with
        | some (.bool v) => v
        | _ => bk.available } := by
      intro bk
      rcases havailable with h | ⟨v, h⟩
      · simp [assignAvailable, h, pure, Except.pure]
      · simp [assignAvailable, h, pure, Except.pure, truthy]
    simp only [putAssignments, runAssignments, assignTitle_str body _ t htitle ht,
      assignAuthor_str body _ a hauthor ha, hY, hG, hI, hA]
    exact ⟨_, rfl, rfl, rfl, rfl, rfl, rfl, rfl, rfl⟩
  obtain ⟨updated, hr, hid, h1, h2, h3, h4, h5, h6⟩ := hrun
  have hput : putBooksId Y s id body =
      ({ status := 200, payload := .bookMessage "Book updated successfully" updated },
       { books := replaceFirst (idMatches (parseIntString id)) updated s.books,
         nextId := s.nextId }) := by
    unfold putBooksId
    simp only [hfind, hv, List.length_nil, gt_iff_lt, lt_self_iff_false, ↓reduceIte]
    rw [if_neg hc]
    simp only [hr, ↓reduceIte]
  refine ⟨updated, hput, ?_, hid, h1, h2, h3, h4, h5, h6⟩
  rw [hput]
  have hm := (findBookById_some hfind).2
  have hm1 : idMatches (parseIntString id) updated = true := by
    unfold idMatches at hm ⊢
    rw [hid]
    exact hm
  exact find?_replaceFirst _ _ hm1 s.books book hfind

/-- Update with the required fields, at the seed store: `PUT /books/2` with the
title and author of book 2 and `genre:"Drama"` returns 200 and only the genre of book 2 changes. -/
theorem put_updates_supplied_fields_witness :
    putBooksId 2026 seedStore "2"
        { title := some (.str "To Kill a Mockingbird"), author := some (.str "Harper Lee"),
          genre := some (.str "Drama") } =
      ({ status := 200,
         payload := .bookMessage "Book updated successfully"
           { id := 2, title := "To Kill a Mockingbird", author := "Harper Lee",
             year := some (.int 1960), genre := some "Drama",
             isbn := some "978-0-06-112008-4", available := true } },
       { books :=
           [ { id := 1, title := "The Great Gatsby", author := "F. Scott Fitzgerald",
               year := some (.int 1925), genre := some "Classic Literature",
               isbn := some "978-0-7432-7356-5", available := true },
             { id := 2, title := "To Kill a Mockingbird", author := "Harper Lee",
               year := some (.int 1960), genre := some "Drama",
               isbn := some "978-0-06-112008-4", available := true },
             { id := 3, title := "1984", author := "George Orwell",
               year := some (.int 1949), genre := some "Dystopian Fiction",
               isbn := some "978-0-452-28423-4", available := false } ],
         nextId := 4 }) := by
  obtain ⟨updated, h, _, h0, h1, h2, h3, h4, h5, h6⟩ :=
    put_updates_supplied_fields 2026 seedStore "2"
      { id := 2, title := "To Kill a Mockingbird", author := "Harper Lee",
        year := some (.int 1960), genre := some "Fiction", isbn := some "978-0-06-112008-4",
        available := true }
      { title := some (.str "To Kill a Mockingbird"), author := some (.str "Harper Lee"),
        genre := some (.str "Drama") }
      "To Kill a Mockingbird" "Harper Lee"
      (by decide) rfl (by decide) rfl (by decide) (Or.inl rfl) (Or.inr ⟨"Drama", rfl⟩)
      (Or.inl rfl) (Or.inl rfl)
  rw [h]
  cases updated
  simp only at h0 h1 h2 h3 h4 h5 h6
  subst h0 h1 h2 h3 h4 h5 h6
  decide

/-! ## Claims -/

/-- C1: in every state reached from the seed store by POST, PUT and DELETE
requests the ids in the collection are pairwise distinct and below `nextId`,
`nextId` exceeds every id ever assigned (the seed ids and the ids handed out by
the create handler, whether or not the book was deleted since), no request
decreases `nextId`, and a book created by a further POST gets an id above every
id assigned before. -/
theorem ids_unique_and_increasing (Y : Int) (rs : List WriteRequest) :
    ((run Y seedStore rs).books.map (·.id)).Nodup ∧
    (∀ b ∈ (run Y seedStore rs).books, b.id < (run Y seedStore rs).nextId) ∧
    (∀ i ∈ books.map (·.id) ++ assignedIds Y seedStore rs,
      i < (run Y seedStore rs).nextId) ∧
    (∀ r, (run Y seedStore rs).nextId ≤ (serve Y (run Y seedStore rs) r).2.nextId) ∧
    (∀ body m b,
      (postBooks Y (run Y seedStore rs) body).1 =
        { status := 201, payload := .bookMessage m b } →
      b.id = (run Y seedStore rs).nextId ∧
      ∀ i ∈ books.map (·.id) ++ assignedIds Y seedStore rs, i < b.id) := by
  have hfresh := run_idsFresh Y rs seedStore seedStore_idsFresh
  have hall : ∀ i ∈ books.map (·.id) ++ assignedIds Y seedStore rs,
      i < (run Y seedStore rs).nextId := by
    intro i hi
    rcases List.mem_append.1 hi with hi | hi
    · have h4 : i < 4 := by
        simp only [books, List.map_cons, List.map_nil, List.mem_cons, List.mem_singleton,
          List.not_mem_nil, or_false] at hi
        omega
      have hmono := run_nextId_le Y rs seedStore
      have h5 : seedStore.nextId = 4 := rfl
      omega
    · exact (assignedIds_bounds Y rs seedStore i hi).2
  refine ⟨hfresh.1, hfresh.2, hall, fun r => serve_nextId_le Y _ r, ?_⟩
  intro body m b h
  have hid : b.id = (run Y seedStore rs).nextId := buildNewBook_id (postBooks_created h).2.1
  refine ⟨hid, fun i hi => ?_⟩
  have := hall i hi
  omega

/-- C2 (violated by the code): after one accepted POST on the seed store whose
isbn is the isbn of book 1 followed by a blank, books 1 and 4 hold the same
non-empty isbn: the duplicate test compares the untrimmed text, the stored
value is trimmed. -/
theorem isbn_duplicate_after_post :
    (postBooks 2026 seedStore
        { title := some (.str "Gatsby again"), author := some (.str "Nobody"),
          isbn := some (.str "978-0-7432-7356-5 ") }).1.status = 201 ∧
    (run 2026 seedStore
        [.post { title := some (.str "Gatsby again"), author := some (.str "Nobody"),
                 isbn := some (.str "978-0-7432-7356-5 ") }]).books.map
        (fun b => (b.id, b.isbn)) =
      [(1, some "978-0-7432-7356-5"), (2, some "978-0-06-112008-4"),
       (3, some "978-0-452-28423-4"), (4, some "978-0-7432-7356-5")] := by
  decide

/-- C3 (violated by the code): on the seed store two consecutive POSTs that
both pass validation and both carry the isbn `"111 "` are both answered 201,
and the second one adds a fifth book with the same stored isbn `"111"`. -/
theorem second_post_same_isbn_accepted :
    (postBooks 2026 seedStore
        { title := some (.str "A"), author := some (.str "B"),
          isbn := some (.str "111 ") }).1.status = 201 ∧
    (postBooks 2026
        (postBooks 2026 seedStore
          { title := some (.str "A"), author := some (.str "B"),
            isbn := some (.str "111 ") }).2
        { title := some (.str "A"), author := some (.str "B"),
          isbn := some (.str "111 ") }).1.status = 201 ∧
    (postBooks 2026
        (postBooks 2026 seedStore
          { title := some (.str "A"), author := some (.str "B"),
            isbn := some (.str "111 ") }).2
        { title := some (.str "A"), author := some (.str "B"),
          isbn := some (.str "111 ") }).2.books.map (fun b => (b.id, b.isbn)) =
      [(1, some "978-0-7432-7356-5"), (2, some "978-0-06-112008-4"),
       (3, some "978-0-452-28423-4"), (4, some "111"), (5, some "111")] := by
  decide

/-- C4 (violated by the code): on the seed store `PUT /books/2` with the body
`{genre:"Drama"}`, a body that supplies one optional field of an existing
book, is answered 400 with both required-field messages and the store is
unchanged: the genre of book 2 is not replaced.  The handler validates the
body as a whole book before its assignments, so the branches of the
assignments that keep the prior title and author are never reached
(`putBooksId_ok_has_title_and_author`). -/
theorem put_genre_only_rejected :
    putBooksId 2026 seedStore "2" { genre := some (.str "Drama") } =
      (validationFailed [titleMessage, authorMessage], seedStore) ∧
    findBookById seedStore.books "2" =
      some { id := 2, title := "To Kill a Mockingbird", author := "Harper Lee",
             year := some (.int 1960), genre := some "Fiction",
             isbn := some "978-0-06-112008-4", available := true } := by
  decide

/-- C5 (violated by the code): for every current year, a candidate with a valid
title and author and the year 0 violates the year rule of the specification
(the year is present and below 1000), yet `validateBook` returns the empty
list: the guard `book.year &&` treats the number 0 as an absent year. -/
theorem year_zero_passes_validation (Y : Int) :
    YearRuleViolated Y
      { title := some (.str "T"), author := some (.str "A"), year := some (.num 0) } ∧
    validateBook Y
      { title := some (.str "T"), author := some (.str "A"), year := some (.num 0) } =
      .ok [] := by
  refine ⟨⟨by simp, .dec 0 0, rfl, Or.inr (Or.inl (by decide))⟩, ?_⟩
  rw [validateBook_of_checks (titleMissing_str _ "T" rfl) (authorMissing_str _ "A" rfl)
    (yearInvalid_num Y _ 0 rfl)]
  have e1 : (jsTrim "T" == "") = false := by decide
  have e2 : (jsTrim "A" == "") = false := by decide
  simp [e1, e2]

/-- C6 (violated by the code): on the seed store `PUT /books/1` with a valid
title and author and `year: 0` is answered 200 and leaves book 1 with the year
0; with `year: null` it is answered 200 and leaves book 1 with the year `NaN`.
Validation skips a falsy year, and the update handler then stores
`parseInt(year)` for every year other than `undefined`. -/
theorem put_stores_year_outside_range :
    (putBooksId 2026 seedStore "1"
        { title := some (.str "The Great Gatsby"), author := some (.str "F. Scott Fitzgerald"),
          year := some (.num 0) }).1.status = 200 ∧
    (run 2026 seedStore
        [.put "1" { title := some (.str "The Great Gatsby"),
                    author := some (.str "F. Scott Fitzgerald"),
                    year := some (.num 0) }]).books.map (fun b => (b.id, b.year)) =
      [(1, some (.int 0)), (2, some (.int 1960)), (3, some (.int 1949))] ∧
    (putBooksId 2026 seedStore "1"
        { title := some (.str "The Great Gatsby"), author := some (.str "F. Scott Fitzgerald"),
          year := some .null }).1.status = 200 ∧
    (run 2026 seedStore
        [.put "1" { title := some (.str "The Great Gatsby"),
                    author := some (.str "F. Scott Fitzgerald"),
                    year := some .null }]).books.map (fun b => (b.id, b.year)) =
      [(1, some .nan), (2, some (.int 1960)), (3, some (.int 1949))] := by
  decide

/-- C7, counterexample: a candidate whose title and author are strings and
whose year is the JSON object `{"toString": 1}` makes `validateBook` throw, so
no list of violations is returned: `isNaN(book.year)` has to convert the object
to a primitive, and its own non-callable `toString` makes that a `TypeError`. -/
theorem validateBook_throws_on_year_object :
    validateBook 2026
      { title := some (.str "T"), author := some (.str "A"),
        year := some (.obj [("toString", .num 1)]) } = .error .typeError := by
  decide

/-- C7, amended: for every candidate whose title and author are each absent or
a string and whose year can be converted to a number without an exception,
`validateBook` returns a list; it contains the title message iff the title is
absent or blank after trimming and the author message iff the author is absent
or blank after trimming, whatever the other fields are; its messages appear in
the order title, author, year; and when the year is absent or truthy it
contains the year message iff the year rule is violated and it is empty iff no
rule is violated. -/
theorem validateBook_collects_all (Y : Int) (body : Body)
    (htitle : body.title = none ∨ ∃ t, body.title = some (.str t))
    (hauthor : body.author = none ∨ ∃ a, body.author = some (.str a))
    (hyear : ∃ y, toNumber body.year = .ok y) :
    ∃ errors, validateBook Y body = .ok errors ∧
      (titleMessage ∈ errors ↔ TitleBlank body) ∧
      (authorMessage ∈ errors ↔ AuthorBlank body) ∧
      errors.Sublist [titleMessage, authorMessage, yearMessage] ∧
      (body.year = none ∨ truthy body.year = true →
        (yearMessage ∈ errors ↔ YearRuleViolated Y body) ∧
        (errors = [] ↔
          ¬ TitleBlank body ∧ ¬ AuthorBlank body ∧ ¬ YearRuleViolated Y body)) := by
  obtain ⟨c1, h1, hc1⟩ := titleMissing_absent_or_str body htitle
  obtain ⟨c2, h2, hc2⟩ := authorMissing_absent_or_str body hauthor
  obtain ⟨y, hy⟩ := hyear
  have h3 := yearInvalid_of_toNumber Y body y hy
  obtain ⟨m1, m2, m3, m4, m5⟩ :=
    mem_messages c1 c2 (truthy body.year && (y.isNaN || y.ltInt 1000 || y.gtInt Y))
  refine ⟨_, validateBook_of_checks h1 h2 h3, m1.trans hc1, m2.trans hc2, m4, ?_⟩
  intro hpresent
  have hrule : (truthy body.year && (y.isNaN || y.ltInt 1000 || y.gtInt Y)) = true ↔
      YearRuleViolated Y body := by
    constructor
    · intro h
      simp only [Bool.and_eq_true, Bool.or_eq_true] at h
      exact ⟨truthy_ne_none h.1, y, hy, or_assoc.1 h.2⟩
    · rintro ⟨hne, y1, hy1, hbad⟩
      rw [hy] at hy1
      cases hy1
      have ht : truthy body.year = true := by
        rcases hpresent with h | h
        · exact absurd h hne
        · exact h
      simp only [Bool.and_eq_true, Bool.or_eq_true]
      exact ⟨ht, or_assoc.2 hbad⟩
  refine ⟨m3.trans hrule, m5.trans ?_⟩
  rw [← hc1, ← hc2, ← hrule]
  simp

/-- C7, amended, at a concrete candidate: with a blank title, no author and the
year 999 all three messages are returned, in source order. -/
theorem validateBook_collects_all_witness :
    validateBook 2026 { title := some (.str "  "), year := some (.num 999) } =
      .ok [titleMessage, authorMessage, yearMessage] ∧
    TitleBlank { title := some (.str "  "), year := some (.num 999) } ∧
    AuthorBlank { title := some (.str "  "), year := some (.num 999) } ∧
    YearRuleViolated 2026 { title := some (.str "  "), year := some (.num 999) } := by
  obtain ⟨errors, hv, h1, h2, _, h3⟩ :=
    validateBook_collects_all 2026 { title := some (.str "  "), year := some (.num 999) }
      (Or.inr ⟨"  ", rfl⟩) (Or.inl rfl) ⟨.dec 999 0, rfl⟩
  have hlist : validateBook 2026 { title := some (.str "  "), year := some (.num 999) } =
      .ok [titleMessage, authorMessage, yearMessage] := by decide
  rw [hlist] at hv
  cases hv
  exact ⟨hlist, h1.1 (by decide), h2.1 (by decide), (h3 (Or.inr rfl)).1.1 (by decide)⟩

/-- C8, counterexample: on the seed store a POST whose body has no title and
whose year is the JSON object `{"toString": 1}` is answered 500, not 400:
`validateBook` throws while testing the year and the handler's `catch` block
answers. -/
theorem post_without_title_answers_500 :
    postBooks 2026 seedStore { year := some (.obj [("toString", .num 1)]) } =
      (internalError, seedStore) ∧
    internalError.status = 500 := by
  decide

/-- C8, amended: for every store and every POST body whose title is absent,
empty or only white space, the collection and `nextId` are unchanged; and when
moreover the author is absent or a string and the year can be converted to a
number without an exception, the response has status 400 and its errors list
contains "Title is required". -/
theorem post_blank_title_rejected (Y : Int) (s : Store) (body : Body)
    (htitle : TitleBlank body) :
    (postBooks Y s body).2 = s ∧
    ((body.author = none ∨ ∃ a, body.author = some (.str a)) →
      (∃ y, toNumber body.year = .ok y) →
      ∃ errors, postBooks Y s body = (validationFailed errors, s) ∧
        (validationFailed errors).status = 400 ∧ "Title is required" ∈ errors) := by
  have h1 := titleMissing_of_blank body htitle
  constructor
  · have hnot : validateBook Y body ≠ .ok [] := by
      intro hv
      obtain ⟨c1, c2, c3, g1, _, _, hnil⟩ := validateBook_ok hv
      rw [h1] at g1
      cases g1
      simp at hnil
    rcases postBooks_cases Y s body with h | ⟨errors, _, _, h⟩ | h | ⟨hv, _⟩ | ⟨b, hv, _, _⟩
    · rw [h]
    · rw [h]
    · rw [h]
    · exact absurd hv hnot
    · exact absurd hv hnot
  · intro hauthor hyear
    obtain ⟨c2, h2, _⟩ := authorMissing_absent_or_str body hauthor
    obtain ⟨y, hy⟩ := hyear
    have h3 := yearInvalid_of_toNumber Y body y hy
    have hv := validateBook_of_checks h1 h2 h3
    refine ⟨([titleMessage] ++ (if c2 = true then [authorMessage] else [])) ++
      (if (truthy body.year && (y.isNaN || y.ltInt 1000 || y.gtInt Y)) = true
        then [yearMessage] else []), ?_, rfl, ?_⟩
    · unfold postBooks
      rw [hv]
      simp
    · simp [titleMessage]

/-- C8, amended, at the seed store: a POST with the empty body is answered 400
with both required-field messages and the store is unchanged. -/
theorem post_blank_title_rejected_witness :
    TitleBlank {} ∧ (postBooks 2026 seedStore {}).2 = seedStore ∧
    postBooks 2026 seedStore {} =
      (validationFailed [titleMessage, authorMessage], seedStore) ∧
    (validationFailed [titleMessage, authorMessage]).status = 400 ∧
    "Title is required" ∈ [titleMessage, authorMessage] := by
  have h := post_blank_title_rejected 2026 seedStore {} (Or.inl rfl)
  obtain ⟨errors, h1, h2, h3⟩ := h.2 (Or.inl rfl) ⟨.nan, rfl⟩
  have hpost : postBooks 2026 seedStore {} =
      (validationFailed [titleMessage, authorMessage], seedStore) := by decide
  rw [hpost] at h1
  have he : errors = [titleMessage, authorMessage] := by
    simp only [validationFailed, Prod.mk.injEq, Response.mk.injEq, Payload.validation.injEq,
      true_and, and_true] at h1
    exact h1.symm
  subst he
  exact ⟨Or.inl rfl, h.1, hpost, h2, h3⟩

/-- C9, counterexample: on the seed store the body
`{title:"A", author:"B", genre:5}` passes validation and carries no isbn, yet
the POST is answered 500: `genre.trim()` throws for the number 5. -/
theorem post_valid_body_answers_500 :
    validateBook 2026
      { title := some (.str "A"), author := some (.str "B"), genre := some (.num 5) } =
      .ok [] ∧
    (postBooks 2026 seedStore
      { title := some (.str "A"), author := some (.str "B"), genre := some (.num 5) }).1 =
      internalError ∧
    internalError.status = 500 := by
  decide

/-- C9, amended: for every store and every POST body that passes validation,
whose genre and isbn are each falsy or a string, and whose isbn, when truthy,
is the isbn of no stored book, the response is 201 with the created book; the
created book has the id `nextId` of the store before the request, the trimmed
title and author, and `available` true when the body omits it; afterwards
`nextId` is one greater and the collection is the previous one with the
created book appended. -/
theorem post_creates_book (Y : Int) (s : Store) (body : Body)
    (hvalid : validateBook Y body = .ok [])
    (hgenre : truthy body.genre = true → ∃ g, body.genre = some (.str g))
    (hisbn : truthy body.isbn = true →
      ∃ i, body.isbn = some (.str i) ∧ ∀ b ∈ s.books, b.isbn ≠ some i) :
    ∃ (created : Book) (t a : String),
      body.title = some (.str t) ∧ body.author = some (.str a) ∧
      postBooks Y s body =
        ({ status := 201, payload := .bookMessage "Book created successfully" created },
         { books := s.books ++ [created], nextId := s.nextId + 1 }) ∧
      created.id = s.nextId ∧ created.title = jsTrim t ∧ created.author = jsTrim a ∧
      (body.available = none → created.available = true) := by
  obtain ⟨h1, h2, h3⟩ := validateBook_nil hvalid
  obtain ⟨t, ht, _, hct⟩ := titleMissing_false h1
  obtain ⟨a, ha, _, hca⟩ := authorMissing_false h2
  have hyear : ∃ y, parseIntOrUndefined body.year = .ok y := by
    unfold parseIntOrUndefined
    by_cases hty : truthy body.year = true
    · obtain ⟨y, hy⟩ := toNumber_of_yearInvalid h3 hty
      obtain ⟨k, hk⟩ := jsParseInt_of_toNumber hy
      exact ⟨some k, by simp [hty, hk, bind, Except.bind, pure, Except.pure]⟩
    · exact ⟨none, by simp [hty, pure, Except.pure]⟩
  obtain ⟨y, hy⟩ := hyear
  obtain ⟨g, hg⟩ := trimOrUndefined_of_str_if_truthy hgenre
  obtain ⟨i, hi⟩ := trimOrUndefined_of_str_if_truthy (fun h => (hisbn h).imp fun _ hx => hx.1)
  have hbuild : buildNewBook s.nextId body = .ok
      { id := s.nextId, title := jsTrim t, author := jsTrim a, year := y, genre := g,
        isbn := i, available := truthy (match body.available with
          | none => some (.bool true)
          | some v => some v) } := by
    unfold buildNewBook
    simp only [hct, hca, hy, hg, hi, bind, Except.bind, pure, Except.pure]
  have hc : ¬ (truthy body.isbn && s.books.any (fun book => strictEq book.isbn body.isbn)) =
      true := by
    intro hcon
    simp only [Bool.and_eq_true, List.any_eq_true] at hcon
    obtain ⟨hti, b, hb, hb1⟩ := hcon
    obtain ⟨j, hj, hfree⟩ := hisbn hti
    rw [hj] at hb1
    cases hbisbn : b.isbn with
    | none => simp [strictEq, hbisbn] at hb1
    | some k =>
      simp only [strictEq, hbisbn, beq_iff_eq] at hb1
      exact hfree b hb (by rw [hbisbn, hb1])
  refine ⟨{ id := s.nextId, title := jsTrim t, author := jsTrim a, year := y, genre := g,
            isbn := i, available := truthy (match body.available with
              | none => some (.bool true)
              | some v => some v) }, t, a, ht, ha, ?_, rfl, rfl, rfl, ?_⟩
  · unfold postBooks
    simp only [hvalid, List.length_nil, gt_iff_lt, lt_self_iff_false, ↓reduceIte, hbuild]
    rw [if_neg hc]
  · intro hav
    simp [hav, truthy]

/-- C9, amended, at the seed store: the POST of
`{title:"Dune", author:"Frank Herbert", year:1965}` passes validation and is
answered 201 with a book of id 4 that is available; `nextId` becomes 5 and the
book is appended to the collection. -/
theorem post_creates_book_witness :
    validateBook 2026
      { title := some (.str "Dune"), author := some (.str "Frank Herbert"),
        year := some (.num 1965) } = .ok [] ∧
    postBooks 2026 seedStore
      { title := some (.str "Dune"), author := some (.str "Frank Herbert"),
        year := some (.num 1965) } =
      ({ status := 201,
         payload := .bookMessage "Book created successfully"
           { id := 4, title := "Dune", author := "Frank Herbert", year := some (.int 1965),
             genre := none, isbn := none, available := true } },
       { books := books ++
           [{ id := 4, title := "Dune", author := "Frank Herbert", year := some (.int 1965),
              genre := none, isbn := none, available := true }],
         nextId := 5 }) := by
  have hv : validateBook 2026
      { title := some (.str "Dune"), author := some (.str "Frank Herbert"),
        year := some (.num 1965) } = .ok [] := by decide
  obtain ⟨created, t, a, _, _, h, hid, _, _, hav⟩ :=
    post_creates_book 2026 seedStore
      { title := some (.str "Dune"), author := some (.str "Frank Herbert"),
        year := some (.num 1965) }
      hv (fun h => by simp [truthy] at h) (fun h => by simp [truthy] at h)
  refine ⟨hv, ?_⟩
  have hd : (postBooks 2026 seedStore
      { title := some (.str "Dune"), author := some (.str "Frank Herbert"),
        year := some (.num 1965) }).1.payload =
      .bookMessage "Book created successfully"
        { id := 4, title := "Dune", author := "Frank Herbert", year := some (.int 1965),
          genre := none, isbn := none, available := true } := by decide
  rw [h] at hd ⊢
  simp only [Payload.bookMessage.injEq, true_and] at hd
  subst hd
  rfl

/-- C10, counterexample: on the collection reached from the seed store by
creating a book without a genre, `GET /books?genre=` (the `genre` criterion
supplied as the empty string) returns all four books, while the fourth book
has no genre and so does not satisfy the criteria as the claim states them.
All texts are ASCII, on which every case table agrees with the one used. -/
theorem get_empty_genre_returns_all :
    (getBooks asciiCaseTable
        (run 2026 seedStore [.post { title := some (.str "A"), author := some (.str "B") }])
        { genre := some "" }).1.payload =
      .bookList 4
        (run 2026 seedStore
          [.post { title := some (.str "A"), author := some (.str "B") }]).books ∧
    (run 2026 seedStore
        [.post { title := some (.str "A"), author := some (.str "B") }]).books.filter
        (satisfiesCriteria asciiCaseTable { genre := some "" }) = books := by
  decide

/-- C10, amended: for every case table of the runtime, every collection and
every combination of the criteria author, genre, available and search (each a
string or omitted), `GET /books` answers 200, its data is exactly the books of
the collection, in their original order, that satisfy every supplied
criterion, where an empty `genre` criterion imposes no constraint, and count
is the length of data; the store is unchanged.  Case is indeed ignored: on the
seed store `author=ORWELL` returns exactly book 3, and `search=the great`
exactly book 1. -/
theorem get_returns_matching_books (rt : CaseTable) (s : Store) (query : Query) :
    getBooks rt s query =
      ({ status := 200,
         payload := .bookList (s.books.filter (satisfiesCriteriaAmended rt query)).length
           (s.books.filter (satisfiesCriteriaAmended rt query)) }, s) ∧
    (s.books.filter (satisfiesCriteriaAmended rt query)).Sublist s.books ∧
    getBooks rt seedStore { author := some "ORWELL" } =
      ({ status := 200,
         payload := .bookList 1
           [{ id := 3, title := "1984", author := "George Orwell", year := some (.int 1949),
              genre := some "Dystopian Fiction", isbn := some "978-0-452-28423-4",
              available := false }] }, seedStore) ∧
    getBooks rt seedStore { search := some "the great" } =
      ({ status := 200,
         payload := .bookList 1
           [{ id := 1, title := "The Great Gatsby", author := "F. Scott Fitzgerald",
              year := some (.int 1925), genre := some "Classic Literature",
              isbn := some "978-0-7432-7356-5", available := true }] }, seedStore) := by
  refine ⟨getBooks_eq_filter rt s query, List.filter_sublist _, ?_, ?_⟩
  · rw [getBooks_ascii rt seedStore _ (by decide) (by decide)]
    decide
  · rw [getBooks_ascii rt seedStore _ (by decide) (by decide)]
    decide

/-- C10, amended, at the seed store with the case table that folds ASCII
letters: `GET /books?genre=fiction&available=TRUE` returns exactly book 2, the
one available book whose genre contains the criterion. -/
theorem get_returns_matching_books_witness :
    getBooks asciiCaseTable seedStore { genre := some "fiction", available := some "TRUE" } =
      ({ status := 200,
         payload := .bookList 1
           [{ id := 2, title := "To Kill a Mockingbird", author := "Harper Lee",
              year := some (.int 1960), genre := some "Fiction",
              isbn := some "978-0-06-112008-4", available := true }] }, seedStore) := by
  rw [(get_returns_matching_books asciiCaseTable seedStore
    { genre := some "fiction", available := some "TRUE" }).1]
  decide

/-- C11: for every collection, `GET /books` without query criteria answers 200
with the whole collection as data, same books in the same order, and with
count equal to the length of the collection; the store is unchanged. -/
theorem get_without_criteria (rt : CaseTable) (s : Store) :
    getBooks rt s {} =
      ({ status := 200, payload := .bookList s.books.length s.books }, s) := by
  rfl

/-- C12: for every collection reached from the seed store by POST, PUT and
DELETE requests, `GET /books?available=true` returns exactly the books whose
`available` is true, `GET /books?available=false` returns exactly the others,
the two results have no book in common, and together they hold the books of
the collection, none of which occurs twice.  On the seed store
`available=false` gives count 1 and only the book with id 3. -/
theorem available_filter_partitions (rt : CaseTable) (Y : Int) (rs : List WriteRequest) :
    getBooks rt (run Y seedStore rs) { available := some "true" } =
      ({ status := 200,
         payload := .bookList
           ((run Y seedStore rs).books.filter (fun b => b.available)).length
           ((run Y seedStore rs).books.filter (fun b => b.available)) },
       run Y seedStore rs) ∧
    getBooks rt (run Y seedStore rs) { available := some "false" } =
      ({ status := 200,
         payload := .bookList
           ((run Y seedStore rs).books.filter (fun b => !b.available)).length
           ((run Y seedStore rs).books.filter (fun b => !b.available)) },
       run Y seedStore rs) ∧
    ((run Y seedStore rs).books.filter (fun b => b.available)).Disjoint
      ((run Y seedStore rs).books.filter (fun b => !b.available)) ∧
    ((run Y seedStore rs).books.filter (fun b => b.available) ++
      (run Y seedStore rs).books.filter (fun b => !b.available)).Perm
      (run Y seedStore rs).books ∧
    (run Y seedStore rs).books.Nodup ∧
    getBooks rt seedStore { available := some "false" } =
      ({ status := 200,
         payload := .bookList 1
           [{ id := 3, title := "1984", author := "George Orwell", year := some (.int 1949),
              genre := some "Dystopian Fiction", isbn := some "978-0-452-28423-4",
              available := false }] }, seedStore) := by
  have htrue : rt.toLowerCase "true" = "true" := by
    rw [rt.lower_ascii "true" (by decide)]
    decide
  have hfalse : (rt.toLowerCase "false" == "true") = false := by
    rw [rt.lower_ascii "false" (by decide)]
    decide
  refine ⟨?_, ?_, ?_, List.filter_append_perm _ _, ?_, ?_⟩
  · simp only [getBooks, truthyParam, htrue]
    simp
  · simp only [getBooks, truthyParam, hfalse]
    simp
  rotate_left 2
  · rw [getBooks_ascii rt seedStore _ (by decide) (by decide)]
    decide
  · intro b h1 h2
    have a1 := (List.mem_filter.1 h1).2
    have a2 := (List.mem_filter.1 h2).2
    simp [a1] at a2
  · exact List.Nodup.of_map _ (run_idsFresh Y rs seedStore seedStore_idsFresh).1

/-- C13: for every store and every id parameter, when no book has the id
parsed from the parameter `DELETE /books/:id` answers 404 and leaves the
collection and `nextId` unchanged; otherwise there is a first book with that
id, the answer is 200 with that book as data, and the new collection is the
old one without that one record, the other records in their original order,
with `nextId` unchanged.  On the seed store the parameter `9999` gives 404. -/
theorem delete_removes_first_match (s : Store) (id : String) :
    ((∀ b ∈ s.books, ¬ HasParsedId id b) → deleteBooksId s id = (notFound id, s)) ∧
    ((∃ b ∈ s.books, HasParsedId id b) → ∃ b, FirstWithParsedId id s.books b) ∧
    (∀ b before after, s.books = before ++ b :: after → HasParsedId id b →
      (∀ x ∈ before, ¬ HasParsedId id x) →
      deleteBooksId s id =
        ({ status := 200, payload := .bookMessage "Book deleted successfully" b },
         { books := before ++ after, nextId := s.nextId })) ∧
    (notFound id).status = 404 ∧
    deleteBooksId seedStore "9999" = (notFound "9999", seedStore) := by
  refine ⟨?_, firstWithParsedId_of_mem s.books id, ?_, rfl, by decide⟩
  · intro hno
    rcases deleteBooksId_cases s id with h | ⟨i, d, hi, _, _⟩
    · exact h
    · obtain ⟨b, hb, hp, _⟩ := findIndex_some _ s.books i hi
      exact absurd ((idMatches_iff id b).1 hp) (hno b (List.getElem?_mem hb))
  · intro b l1 l2 hl hb hno
    have hp : idMatches (parseIntString id) b = true := (idMatches_iff id b).2 hb
    have hidx := findIndex_append _ b hp l1 l2
      (fun x hx => not_idMatches_of_not_hasParsedId (hno x hx))
    have hget : (l1 ++ b :: l2)[l1.length]? = some b := by
      rw [List.getElem?_append_right (Nat.le_refl _)]
      simp
    have herase : (l1 ++ b :: l2).eraseIdx l1.length = l1 ++ l2 := by
      rw [List.eraseIdx_append_of_length_le (Nat.le_refl _)]
      simp
    unfold deleteBooksId
    rw [hl, hidx]
    simp only [hget, herase]

/-- C14 (violated by the code): in the collection reached from the seed store
by creating a book with the genre `__proto__`, one book has that genre and
four books have a non-empty genre, yet the statistics handler reports a
`genreDistribution` without an entry for `__proto__` whose counts add up to 3;
after creating a book with the genre `constructor` instead, the entry for
`constructor` is a text, not the number 1.  The distribution is a plain
object, so reading a genre that names a property of `Object.prototype` does
not yield `undefined`. -/
theorem stats_miscount_inherited_names :
    (getBooksStats (run 2026 seedStore
        [.post { title := some (.str "A"), author := some (.str "B"),
                 genre := some (.str "__proto__") }])).1 =
      { status := 200,
        payload := .stats
          { totalBooks := 4, availableBooks := 3, unavailableBooks := 1,
            genreDistribution :=
              [("Classic Literature", .count 1), ("Fiction", .count 1),
               ("Dystopian Fiction", .count 1)] } } ∧
    genreCount (run 2026 seedStore
        [.post { title := some (.str "A"), author := some (.str "B"),
                 genre := some (.str "__proto__") }]).books "__proto__" = 1 ∧
    getOwn "__proto__" (genreDistribution (run 2026 seedStore
        [.post { title := some (.str "A"), author := some (.str "B"),
                 genre := some (.str "__proto__") }]).books) = none ∧
    sumOfCounts (genreDistribution (run 2026 seedStore
        [.post { title := some (.str "A"), author := some (.str "B"),
                 genre := some (.str "__proto__") }]).books) = 3 ∧
    ((run 2026 seedStore
        [.post { title := some (.str "A"), author := some (.str "B"),
                 genre := some (.str "__proto__") }]).books.filter
        (fun b => b.genre.isSome && b.genre != some "")).length = 4 ∧
    genreCount (run 2026 seedStore
        [.post { title := some (.str "A"), author := some (.str "B"),
                 genre := some (.str "constructor") }]).books "constructor" = 1 ∧
    getOwn "constructor" (genreDistribution (run 2026 seedStore
        [.post { title := some (.str "A"), author := some (.str "B"),
                 genre := some (.str "constructor") }]).books) =
      some (.text "function Object() \x7b [native code] \x7d1") := by
  decide

/-- C15 (violated by the code): for every store and current year, a GET
request for `/books/stats` sent through the route table is answered by the
handler of `GET /books/:id`, registered before the statistics route, with
`id = "stats"`: the answer is 404 "Book with ID stats not found" and the store
is unchanged.  The statistics handler itself would give the expected object on
the seed store. -/
theorem stats_route_is_shadowed (rt : CaseTable) (Y : Int) (s : Store) :
    dispatch rt Y s { method := .get, path := ["books", "stats"] } = (notFound "stats", s) ∧
    (notFound "stats").status = 404 ∧
    (getBooksStats seedStore).1 =
      { status := 200,
        payload := .stats
          { totalBooks := 3, availableBooks := 2, unavailableBooks := 1,
            genreDistribution :=
              [("Classic Literature", .count 1), ("Fiction", .count 1),
               ("Dystopian Fiction", .count 1)] } } := by
  refine ⟨?_, rfl, by decide⟩
  have hroute : (routeTable rt).findSome?
      (fun route => route Y { method := .get, path := ["books", "stats"] }) =
      some (fun s => getBooksId s "stats") := by
    have hb : isBooks "books" = true := by decide
    simp [routeTable, List.findSome?, hb]
  unfold dispatch
  rw [hroute]
  show getBooksId s "stats" = (notFound "stats", s)
  unfold getBooksId
  rw [findBookById_nan s.books "stats" (by decide)]

/-- C16: for every store and every id parameter, `GET /books/:id` answers 200
with data `b` exactly when `b` is the first book of the collection whose id
equals the integer parsed from the parameter, answers 404 exactly when no book
has that id, which includes every parameter that does not parse to an integer,
and leaves the store unchanged. -/
theorem get_by_id_returns_first_match (s : Store) (id : String) :
    (∀ b, (getBooksId s id).1 = { status := 200, payload := .book b } ↔
      FirstWithParsedId id s.books b) ∧
    ((getBooksId s id).1.status = 404 ↔ ∀ b ∈ s.books, ¬ HasParsedId id b) ∧
    ((getBooksId s id).1.status = 200 ∨ (getBooksId s id).1.status = 404) ∧
    (parseIntString id = .nan → (getBooksId s id).1.status = 404) ∧
    (getBooksId s id).2 = s := by
  unfold getBooksId
  cases hf : findBookById s.books id with
  | none =>
    have hno := (findBookById_eq_none_iff s.books id).1 hf
    refine ⟨fun b => ⟨fun h => ?_, fun h => ?_⟩, ⟨fun _ => hno, fun _ => rfl⟩, Or.inr rfl,
      fun _ => rfl, rfl⟩
    · simp [notFound] at h
    · have := (findBookById_eq_some_iff s.books id b).2 h
      rw [hf] at this
      cases this
  | some book =>
    have hfirst := (findBookById_eq_some_iff s.books id book).1 hf
    refine ⟨fun b => ⟨fun h => ?_, fun h => ?_⟩, ⟨fun h => ?_, fun h => ?_⟩, Or.inl rfl,
      fun hnan => ?_, rfl⟩
    · have hb : book = b := by simpa using h
      rw [← hb]
      exact hfirst
    · have := (findBookById_eq_some_iff s.books id b).2 h
      rw [hf] at this
      cases this
      rfl
    · simp at h
    · exact absurd ((findBookById_eq_none_iff s.books id).2 h) (by rw [hf]; simp)
    · rw [findBookById_nan s.books id hnan] at hf
      cases hf

/-- C17: in every state reached from the seed store by POST, PUT and DELETE
requests, every stored book has a non-empty title and author, and its title,
its author, and its genre and isbn when present, each equal their own trimmed
form. -/
theorem stored_texts_are_trimmed (Y : Int) (rs : List WriteRequest) :
    ∀ b ∈ (run Y seedStore rs).books,
      b.title ≠ "" ∧ b.author ≠ "" ∧ jsTrim b.title = b.title ∧ jsTrim b.author = b.author ∧
      (∀ g, b.genre = some g → jsTrim g = g) ∧ (∀ i, b.isbn = some i → jsTrim i = i) :=
  run_wellStored Y rs seedStore seedStore_wellStored

/-- C17 at a concrete state: after the POST of a book whose title, author and
genre carry blanks around them, the stored book 4 has the trimmed texts. -/
theorem stored_texts_are_trimmed_witness :
    ({ id := 4, title := "Dune", author := "Frank Herbert", year := none,
       genre := some "Science Fiction", isbn := none, available := true } : Book) ∈
      (run 2026 seedStore
        [.post { title := some (.str "  Dune "), author := some (.str " Frank Herbert"),
                 genre := some (.str "Science Fiction  ") }]).books ∧
    ("Dune" ≠ "" ∧ "Frank Herbert" ≠ "" ∧ jsTrim "Dune" = "Dune" ∧
      jsTrim "Frank Herbert" = "Frank Herbert" ∧
      (∀ g, some "Science Fiction" = some g → jsTrim g = g) ∧
      (∀ i, (none : Option String) = some i → jsTrim i = i)) :=
  ⟨by decide,
    stored_texts_are_trimmed 2026
      [.post { title := some (.str "  Dune "), author := some (.str " Frank Herbert"),
               genre := some (.str "Science Fiction  ") }]
      { id := 4, title := "Dune", author := "Frank Herbert", year := none,
        genre := some "Science Fiction", isbn := none, available := true }
      (by decide)⟩

/-- C18: for every store and every `PUT /books/:id` answered with 200, the
collection before the request is `before ++ book :: after` with `book` the
first record whose id is the parsed parameter, and the collection after it is
`before ++ updated :: after`: every other record is unchanged and in its
place, the length is the same, `nextId` is unchanged, and `updated`, the data
of the response, has the id of `book`, whatever `id` the body carries. -/
theorem put_changes_only_matched_record (Y : Int) (s : Store) (id : String) (body : Body)
    (h : (putBooksId Y s id body).1.status = 200) :
    ∃ before book after updated,
      s.books = before ++ book :: after ∧ HasParsedId id book ∧
      (∀ x ∈ before, ¬ HasParsedId id x) ∧
      (putBooksId Y s id body).2.books = before ++ updated :: after ∧
      (putBooksId Y s id body).1.payload = .bookMessage "Book updated successfully" updated ∧
      updated.id = book.id ∧
      (putBooksId Y s id body).2.books.length = s.books.length ∧
      (putBooksId Y s id body).2.nextId = s.nextId := by
  rcases putBooksId_cases Y s id body with h1 | h1 | ⟨errors, _, _, h1⟩ | h1 |
    ⟨book, hf, _, h1⟩
  · rw [h1] at h; cases h
  · rw [h1] at h; cases h
  · rw [h1] at h; cases h
  · rw [h1] at h; cases h
  · obtain ⟨l1, l2, hl, hb, hno⟩ := (findBookById_eq_some_iff s.books id book).1 hf
    have hr : (runAssignments (putAssignments body) book).2 = true := by
      cases hr : (runAssignments (putAssignments body) book).2 with
      | true => rfl
      | false =>
        rw [h1, hr] at h
        cases h
    have hrep := replaceFirst_append (idMatches (parseIntString id)) book
      (runAssignments (putAssignments body) book).1 ((idMatches_iff id book).2 hb) l1 l2
      (fun x hx => not_idMatches_of_not_hasParsedId (hno x hx))
    refine ⟨l1, book, l2, (runAssignments (putAssignments body) book).1, hl, hb, hno, ?_, ?_,
      runAssignments_id _ (putAssignments_id body) book, ?_, ?_⟩
    · rw [h1, hl]
      exact hrep
    · rw [h1, hr]
      rfl
    · rw [h1, hl]
      show (replaceFirst _ _ (l1 ++ book :: l2)).length = _
      rw [hrep]
      simp
    · rw [h1]

/-- C18 at the seed store: `PUT /books/2` with a body that carries `id: 99`
is answered 200, book 2 keeps the id 2 and takes the new title, books 1 and 3
are unchanged and `nextId` stays 4. -/
theorem put_changes_only_matched_record_witness :
    (putBooksId 2026 seedStore "2"
        { id := some (.num 99), title := some (.str "Go Set a Watchman"),
          author := some (.str "Harper Lee") }).1.status = 200 ∧
    (putBooksId 2026 seedStore "2"
        { id := some (.num 99), title := some (.str "Go Set a Watchman"),
          author := some (.str "Harper Lee") }).2 =
      { books :=
          [ { id := 1, title := "The Great Gatsby", author := "F. Scott Fitzgerald",
              year := some (.int 1925), genre := some "Classic Literature",
              isbn := some "978-0-7432-7356-5", available := true },
            { id := 2, title := "Go Set a Watchman", author := "Harper Lee",
              year := some (.int 1960), genre := some "Fiction",
              isbn := some "978-0-06-112008-4", available := true },
            { id := 3, title := "1984", author := "George Orwell",
              year := some (.int 1949), genre := some "Dystopian Fiction",
              isbn := some "978-0-452-28423-4", available := false } ],
        nextId := 4 } := by
  have hs : (putBooksId 2026 seedStore "2"
      { id := some (.num 99), title := some (.str "Go Set a Watchman"),
        author := some (.str "Harper Lee") }).1.status = 200 := by decide
  obtain ⟨l1, book, l2, updated, _, _, _, hbooks, _, _, _, hnext⟩ :=
    put_changes_only_matched_record 2026 seedStore "2"
      { id := some (.num 99), title := some (.str "Go Set a Watchman"),
        author := some (.str "Harper Lee") } hs
  refine ⟨hs, ?_⟩
  have hb : (putBooksId 2026 seedStore "2"
      { id := some (.num 99), title := some (.str "Go Set a Watchman"),
        author := some (.str "Harper Lee") }).2.books =
      [ { id := 1, title := "The Great Gatsby", author := "F. Scott Fitzgerald",
          year := some (.int 1925), genre := some "Classic Literature",
          isbn := some "978-0-7432-7356-5", available := true },
        { id := 2, title := "Go Set a Watchman", author := "Harper Lee",
          year := some (.int 1960), genre := some "Fiction",
          isbn := some "978-0-06-112008-4", available := true },
        { id := 3, title := "1984", author := "George Orwell",
          year := some (.int 1949), genre := some "Dystopian Fiction",
          isbn := some "978-0-452-28423-4", available := false } ] := by decide
  have hn : (putBooksId 2026 seedStore "2"
      { id := some (.num 99), title := some (.str "Go Set a Watchman"),
        author := some (.str "Harper Lee") }).2.nextId = 4 := hnext
  cases hst : (putBooksId 2026 seedStore "2"
      { id := some (.num 99), title := some (.str "Go Set a Watchman"),
        author := some (.str "Harper Lee") }).2 with
  | mk bs n =>
    rw [hst] at hb hn
    simp only at hb hn
    rw [hb, hn]

/-- C19 (violated by the code): on the seed store the POST of
`{title:"A", author:"B", genre:5}` is answered 500 and leaves `nextId` at 5
instead of 4, and `PUT /books/1` with
`{title:"Changed", author:"Somebody", genre:5}` is answered 500 and leaves
book 1 with the new title and author: `genre.trim()` throws after `nextId++`,
respectively after the assignments to `book.title` and `book.author`. -/
theorem error_response_changes_store :
    postBooks 2026 seedStore
        { title := some (.str "A"), author := some (.str "B"), genre := some (.num 5) } =
      (internalError, { books := books, nextId := 5 }) ∧
    internalError.status = 500 ∧
    (putBooksId 2026 seedStore "1"
        { title := some (.str "Changed"), author := some (.str "Somebody"),
          genre := some (.num 5) }).1 = internalError ∧
    (putBooksId 2026 seedStore "1"
        { title := some (.str "Changed"), author := some (.str "Somebody"),
          genre := some (.num 5) }).2.books.map (fun b => (b.id, b.title, b.author)) =
      [(1, "Changed", "Somebody"), (2, "To Kill a Mockingbird", "Harper Lee"),
       (3, "1984", "George Orwell")] := by
  decide

end BookApi
